import Mathlib

/-!
# SparseLengthsFused8BitRowwiseOp

A shallow embedding of `caffe2/operators/lengths_reducer_fused_8bit_rowwise_ops.h`:
the operator `SparseLengthsFused8BitRowwiseOp`, its slot enumeration,
`RunOnDevice` and `DoRunWithType`.

What the header file itself contains is translated statement by statement.
What it only uses is kept abstract or small:

* the fast kernel `fbgemm::EmbeddingSpMDM` is a parameter of the model
  (a function from the arguments of the call to a success flag and the
  contents it leaves in the output buffer);
* tensors carry a runtime element kind, a shape and their elements;
* an enforcement failure is a value of `Err`, and a run is described by the
  effects it had (slots read, output allocated, kernel calls) together with
  its result.

Sizes and loop counters are natural numbers and element values are integers.
The counters `m`, `i` of the source are `int`; they agree with the model for
tensors of fewer than `2^31` elements, and `current` is an `int64_t` that only
ever counts positions of INDICES.
-/

namespace caffe2

/-- Runtime element kinds of the tensors that reach this operator. -/
inductive ElemKind where
  | uint8
  | int32
  | int64
  | float32
  deriving DecidableEq, Repr

/-- The two instantiations of the template parameter `IndexType` that
`RunOnDevice` dispatches to (`TensorTypes<int32_t, int64_t>`). -/
inductive IndexType where
  | int32_t
  | int64_t
  deriving DecidableEq, Repr

/-- The element kind a tensor must have to be read as `IndexType`. -/
def IndexType.kind : IndexType → ElemKind
  | .int32_t => .int32
  | .int64_t => .int64

/-- Enforcement failures. The first four are the `CAFFE_ENFORCE*` calls of the
header, with the compared values and the message; the others are raised by
the tensor library and by the dispatcher. -/
inductive Err where
  /-- `CAFFE_ENFORCE_EQ(x, y, msg)` with `x != y`. -/
  | enforce_eq (x y : Int) (msg : String)
  /-- `CAFFE_ENFORCE_GT(x, y, msg)` with `x <= y`. -/
  | enforce_gt (x y : Int) (msg : String)
  /-- `CAFFE_ENFORCE_LT(current, index_size)` with `current >= index_size`. -/
  | enforce_lt (x y : Int)
  /-- `CAFFE_ENFORCE(0 <= idx && idx < data_size, "Index ", current,
  " is out of bounds: ", idx, ", range 0 to ", data_size)`. -/
  | index_out_of_bounds (current idx data_size : Int)
  /-- `data<T>()` asked for a kind the tensor does not hold. -/
  | type_mismatch (expected actual : ElemKind)
  /-- `size(d)` asked for a dimension the tensor does not have. -/
  | dim_out_of_range (d rank : Nat)
  /-- `DispatchHelper` met a kind outside its type list. -/
  | unsupported_type (actual : ElemKind)
  /-- A read past the end of a buffer (undefined behaviour in the source). -/
  | out_of_buffer
  deriving DecidableEq, Repr

/-- A tensor: element kind, shape, and the stored elements in row-major
order (for `float32` the bit patterns). -/
structure Tensor where
  kind : ElemKind
  sizes : List Nat
  elems : List Int
  numel_eq : elems.length = sizes.prod

/-- The rank, `dim()`. -/
def Tensor.dim (t : Tensor) : Nat := t.sizes.length

/-- The element count, `numel()`. -/
def Tensor.numel (t : Tensor) : Nat := t.sizes.prod

/-- Modelled from the spec: `Tensor::size(d)` of the tensor library, which is
not part of the header. It is the extent of dimension `d` of the shape, and
an error for a dimension the tensor does not have. -/
def Tensor.size (t : Tensor) (d : Nat) : Except Err Nat :=
  match t.sizes.get? d with
  | some n => .ok n
  | none => .error (.dim_out_of_range d t.dim)

/-- Modelled from the spec: the typed accessor `Tensor::data<T>()` belongs to
the tensor library (the generic tensor abstraction that the spec lists as an
external collaborator), not to the header. Tensors carry a runtime element
kind (section 6: the kind `RunOnDevice` dispatches on) and every violation is
raised, with "no silent coercion" (section 7): the accessor hands out the
buffer at the kind the tensor holds and raises for any other kind, as
`data<T>()` of the Caffe2 tensor does. -/
def Tensor.data (T : ElemKind) (t : Tensor) : Except Err (List Int) :=
  if t.kind = T then .ok t.elems else .error (.type_mismatch T t.kind)

/-- The operator type `SparseLengthsFused8BitRowwiseOp<Context, with_weights,
is_mean>`: the two template flags, and the `static_assert` that has to hold
for the type to be formed. -/
structure SparseLengthsFused8BitRowwiseOp where
  with_weights : Bool
  is_mean : Bool
  static_assert : (!(with_weights && is_mean)) = true

/-- Forming the operator type for a pair of template flags: the
`static_assert` of lines 18-20 refuses the pair with both flags set, with its
message, when the template is instantiated. -/
def instantiate (with_weights is_mean : Bool) : Except String SparseLengthsFused8BitRowwiseOp :=
  if h : (!(with_weights && is_mean)) = true then .ok ⟨with_weights, is_mean, h⟩
  else .error "Cannot have with_weights and is_mean a the same time"

/-- The names of the input slot enumeration. -/
inductive Slot where
  | DATA
  | WEIGHTS
  | INDICES
  | LENGTHS
  deriving DecidableEq, Repr

/-- The values of the enumeration:
`DATA = 0, WEIGHTS = 1, INDICES = 1 + with_weights, LENGTHS = 2 + with_weights`. -/
def Slot.index (with_weights : Bool) : Slot → Nat
  | .DATA => 0
  | .WEIGHTS => 1
  | .INDICES => 1 + with_weights.toNat
  | .LENGTHS => 2 + with_weights.toNat

/-- The call `Input(s)`: `ins` is the input list of the operator, addressed by slot
number, and `s` is resolved through the enumeration of this operator type. -/
def SparseLengthsFused8BitRowwiseOp.Input (op : SparseLengthsFused8BitRowwiseOp)
    (ins : Nat → Tensor) (s : Slot) : Tensor :=
  ins (s.index op.with_weights)

/-- The arguments of one call of `fbgemm::EmbeddingSpMDM<std::uint8_t, IndexType>`. -/
structure KernelArgs where
  index_type : IndexType
  block_size : Int
  output_size : Int
  index_size : Int
  data_size : Int
  input : List Int
  indices : List Int
  lengths : List Int
  weights : Option (List Int)
  normalize_by_lengths : Bool
  prefetch_distance : Int

/-- The fast kernel, a black box: for the arguments of a call, its success
flag and the contents it leaves in the output buffer. -/
abbrev Kernel := KernelArgs → Bool × List Int

/-- What one call of the operator did: the slots it fetched with `Input`, the
shape it allocated OUTPUT with (if it got that far), the kernel calls it made,
the contents of OUTPUT (written by the kernel only), and how it ended: an
enforcement failure or the returned flag. -/
structure Run where
  reads : List Slot
  output : Option (List Int)
  calls : List KernelArgs
  out_data : Option (List Int)
  result : Except Err Bool

/-- A run that ends by raising `e` before OUTPUT is allocated. -/
def Run.raise (reads : List Slot) (e : Err) : Run :=
  ⟨reads, none, [], none, .error e⟩

/-- The inner loop, lines 83-95, with `n` iterations left to do:
`CAFFE_ENFORCE_LT(current, index_size)`, read `indices_[current]`, check it
against `[0, data_size)`, `++current`. Returns the cursor after the loop. -/
def innerLoop (indices_ : List Int) (index_size data_size : Nat) :
    Nat → Nat → Except Err Nat
  | 0, current => .ok current
  | n + 1, current =>
    if current < index_size then
      match indices_.get? current with
      | none => .error .out_of_buffer
      | some idx =>
        if 0 ≤ idx ∧ idx < (data_size : Int) then
          innerLoop indices_ index_size data_size n (current + 1)
        else .error (.index_out_of_bounds current idx data_size)
    else .error (.enforce_lt current index_size)

/-- The outer loop, lines 82-96, at segment `m` with `k` segments left
(`k = output_size - m`): the inner loop runs `i = 0, 1, ...` while
`i < lengths_[m]`, that is `max(0, lengths_[m])` times. -/
def outerLoop (lengths_ indices_ : List Int) (index_size data_size : Nat) :
    Nat → Nat → Nat → Except Err Nat
  | 0, _, current => .ok current
  | k + 1, m, current =>
    match lengths_.get? m with
    | none => .error .out_of_buffer
    | some len =>
      match innerLoop indices_ index_size data_size len.toNat current with
      | .error e => .error e
      | .ok c => outerLoop lengths_ indices_ index_size data_size k (m + 1) c

/-- The message of the final check of the fallback. -/
def sum_of_lengths_msg : String :=
  "Your input seems to be incorrect: the sum of lengths values should be the size of the indices tensor, but it appears not."

/-- The fallback, lines 75-103, run when the kernel has reported failure. -/
def fallback (T : IndexType) (output_size : Nat) (data indices lengths : Tensor) :
    Except Err Bool :=
  match lengths.data T.kind with
  | .error e => .error e
  | .ok lengths_ =>
    let index_size := indices.numel
    match indices.data T.kind with
    | .error e => .error e
    | .ok indices_ =>
      match data.size 0 with
      | .error e => .error e
      | .ok data_size =>
        match outerLoop lengths_ indices_ index_size data_size output_size 0 0 with
        | .error e => .error e
        | .ok current =>
          if current = index_size then .ok true
          else .error (.enforce_eq current index_size sum_of_lengths_msg)

/-- Lines 39-48: the `weights` pointer; `nullptr` unless `with_weights`. -/
def readWeights (with_weights : Bool) (weights_input indices : Tensor) :
    Except Err (Option (List Int)) :=
  if with_weights then
    if weights_input.dim = 1 then
      if weights_input.numel = indices.numel then
        match weights_input.data .float32 with
        | .error e => .error e
        | .ok w => .ok (some w)
      else .error (.enforce_eq weights_input.numel indices.numel
        "WEIGHTS should have the same length as INDICES.")
    else .error (.enforce_eq weights_input.dim 1 "WEIGHTS must be a vector")
  else .ok none

/-- The slots fetched up to and including lines 39-48. -/
def readsOf (with_weights : Bool) : List Slot :=
  if with_weights then [.DATA, .INDICES, .LENGTHS, .WEIGHTS]
  else [.DATA, .INDICES, .LENGTHS]

/-- Lines 56-103: the arguments of the kernel call are evaluated, the kernel
is called, and on failure the fallback runs. -/
def callKernel (op : SparseLengthsFused8BitRowwiseOp) (T : IndexType) (kernel : Kernel)
    (data indices lengths : Tensor) (weights : Option (List Int)) (shape : List Int)
    (output_size : Nat) : Run :=
  let rd := readsOf op.with_weights
  match data.size 0, data.data .uint8, indices.data T.kind, lengths.data .int32 with
  | .ok data_size, .ok input, .ok indices_, .ok lengths_ =>
    let args : KernelArgs :=
      { index_type := T
        block_size := shape.getD 1 0
        output_size := shape.getD 0 0
        index_size := indices.numel
        data_size := data_size
        input := input
        indices := indices_
        lengths := lengths_
        weights := weights
        normalize_by_lengths := op.is_mean
        prefetch_distance := 16 }
    let r := kernel args
    if r.1 then ⟨rd, some shape, [args], some r.2, .ok true⟩
    else ⟨rd, some shape, [args], some r.2, fallback T output_size data indices lengths⟩
  | .error e, _, _, _ => ⟨rd, some shape, [], none, .error e⟩
  | .ok _, .error e, _, _ => ⟨rd, some shape, [], none, .error e⟩
  | .ok _, .ok _, .error e, _ => ⟨rd, some shape, [], none, .error e⟩
  | .ok _, .ok _, .ok _, .error e => ⟨rd, some shape, [], none, .error e⟩

/-- The body of `DoRunWithType<IndexType>()`, lines 31-104. -/
def DoRunWithType (op : SparseLengthsFused8BitRowwiseOp) (T : IndexType) (kernel : Kernel)
    (ins : Nat → Tensor) : Run :=
  let data := op.Input ins .DATA
  let indices := op.Input ins .INDICES
  let lengths := op.Input ins .LENGTHS
  let rd0 : List Slot := [.DATA, .INDICES, .LENGTHS]
  if indices.dim = 1 then
    if lengths.dim = 1 then
      match readWeights op.with_weights (op.Input ins .WEIGHTS) indices with
      | .error e => Run.raise (readsOf op.with_weights) e
      | .ok weights =>
        match data.size 1 with
        | .error e => Run.raise (readsOf op.with_weights) e
        | .ok cols =>
          if cols > 8 then
            match lengths.size 0 with
            | .error e => Run.raise (readsOf op.with_weights) e
            | .ok output_size =>
              callKernel op T kernel data indices lengths weights
                [(output_size : Int), (cols : Int) - 8] output_size
          else Run.raise (readsOf op.with_weights)
            (.enforce_gt cols 8 "DATA must have more than 8 columns")
    else Run.raise rd0 (.enforce_eq lengths.dim 1 "LENGTHS must be a vector")
  else Run.raise rd0 (.enforce_eq indices.dim 1 "INDICES must be a vector")

/-- `RunOnDevice()`, lines 25-28: dispatch on the element kind of the tensor
in the INDICES slot; kinds outside `TensorTypes<int32_t, int64_t>` are refused. -/
def RunOnDevice (op : SparseLengthsFused8BitRowwiseOp) (kernel : Kernel)
    (ins : Nat → Tensor) : Run :=
  match (op.Input ins .INDICES).kind with
  | .int32 => DoRunWithType op .int32_t kernel ins
  | .int64 => DoRunWithType op .int64_t kernel ins
  | k => Run.raise [.INDICES] (.unsupported_type k)

/-! ## Vocabulary of the statements -/

/-- The number of rows of a matrix, `size(0)`; 0 for a tensor without rows. -/
def Tensor.rows (t : Tensor) : Nat := t.sizes.getD 0 0

/-- The number of columns of a matrix, `size(1)`; 0 for a tensor without columns. -/
def Tensor.columns (t : Tensor) : Nat := t.sizes.getD 1 0

/-- The four validation rules of lines 36-50: INDICES is a vector, LENGTHS is
a vector, WEIGHTS (read in weighted mode only) is a vector with as many
elements as INDICES, DATA has more than 8 columns. -/
@[reducible]
def Validated (op : SparseLengthsFused8BitRowwiseOp) (ins : Nat → Tensor) : Prop :=
  (op.Input ins .INDICES).dim = 1 ∧ (op.Input ins .LENGTHS).dim = 1 ∧
  (op.with_weights = true → (op.Input ins .WEIGHTS).dim = 1 ∧
    (op.Input ins .WEIGHTS).numel = (op.Input ins .INDICES).numel) ∧
  8 < (op.Input ins .DATA).columns

/-- The element kinds of the inputs of the operator: DATA is a matrix of bytes,
INDICES holds `IndexType`, LENGTHS holds `int`, WEIGHTS (weighted mode) holds
`float`. These are the kinds at which lines 47 and 63-65 read the buffers. -/
@[reducible]
def WellTyped (op : SparseLengthsFused8BitRowwiseOp) (T : IndexType)
    (ins : Nat → Tensor) : Prop :=
  (op.Input ins .DATA).kind = .uint8 ∧ (op.Input ins .DATA).dim = 2 ∧
  (op.Input ins .INDICES).kind = T.kind ∧ (op.Input ins .LENGTHS).kind = .int32 ∧
  (op.with_weights = true → (op.Input ins .WEIGHTS).kind = .float32)

/-- The arguments of the kernel call of a validated run, written from the
inputs: block size `columns - 8`, one output row per element of LENGTHS, and
the weights only in weighted mode. -/
def kernelArgs (op : SparseLengthsFused8BitRowwiseOp) (T : IndexType)
    (ins : Nat → Tensor) : KernelArgs :=
  { index_type := T
    block_size := ((op.Input ins .DATA).columns : Int) - 8
    output_size := (op.Input ins .LENGTHS).numel
    index_size := (op.Input ins .INDICES).numel
    data_size := (op.Input ins .DATA).rows
    input := (op.Input ins .DATA).elems
    indices := (op.Input ins .INDICES).elems
    lengths := (op.Input ins .LENGTHS).elems
    weights := if op.with_weights then some (op.Input ins .WEIGHTS).elems else none
    normalize_by_lengths := op.is_mean
    prefetch_distance := 16 }

/-- The kernel reports failure on the call a validated run makes. -/
@[reducible]
def KernelFails (op : SparseLengthsFused8BitRowwiseOp) (T : IndexType) (kernel : Kernel)
    (ins : Nat → Tensor) : Prop :=
  (kernel (kernelArgs op T ins)).1 = false

/-- An index value lies in `[0, num_rows)`. -/
@[reducible]
def InRange (num_rows : Nat) (idx : Int) : Prop := 0 ≤ idx ∧ idx < (num_rows : Int)

/-- The walk over the segments that are left, by recursion on their lengths:
the form of `outerLoop` used in the proofs. -/
def walkSegments (indices_ : List Int) (index_size data_size : Nat) :
    List Int → Nat → Except Err Nat
  | [], current => .ok current
  | len :: rest, current =>
    match innerLoop indices_ index_size data_size len.toNat current with
    | .error e => .error e
    | .ok c => walkSegments indices_ index_size data_size rest c

/-- The number of indices the walk sets out to check: `max(0, len)` for each
segment. -/
def consumed (lengths_ : List Int) : Nat := (lengths_.map Int.toNat).sum

/-- The indexing invariants of the data model: every LENGTHS value is
non-negative, the LENGTHS sum to the number of INDICES, and every INDICES
value lies in `[0, num_rows)`. -/
@[reducible]
def ValidIndexing (op : SparseLengthsFused8BitRowwiseOp) (ins : Nat → Tensor) : Prop :=
  (∀ l ∈ (op.Input ins .LENGTHS).elems, 0 ≤ l) ∧
  (op.Input ins .LENGTHS).elems.sum = ((op.Input ins .INDICES).numel : Int) ∧
  ∀ x ∈ (op.Input ins .INDICES).elems, InRange (op.Input ins .DATA).rows x

/-- The validation rules, in the order in which the claims list them. -/
inductive Rule where
  | indices_rank
  | lengths_rank
  | weights_rank
  | weights_count
  | data_width
  deriving DecidableEq, Repr

/-- The place of a rule in the order INDICES rank, LENGTHS rank, WEIGHTS
rank, WEIGHTS count, DATA width. -/
def Rule.position : Rule → Nat
  | .indices_rank => 0
  | .lengths_rank => 1
  | .weights_rank => 2
  | .weights_count => 3
  | .data_width => 4

/-- What it means for the inputs to violate a rule. The two WEIGHTS rules
apply in weighted mode only. -/
@[reducible]
def Rule.violated (op : SparseLengthsFused8BitRowwiseOp) (ins : Nat → Tensor) : Rule → Prop
  | .indices_rank => (op.Input ins .INDICES).dim ≠ 1
  | .lengths_rank => (op.Input ins .LENGTHS).dim ≠ 1
  | .weights_rank => op.with_weights = true ∧ (op.Input ins .WEIGHTS).dim ≠ 1
  | .weights_count => op.with_weights = true ∧
      (op.Input ins .WEIGHTS).numel ≠ (op.Input ins .INDICES).numel
  | .data_width => (op.Input ins .DATA).columns ≤ 8

/-- The message of the enforcement that belongs to a rule. -/
def Rule.message : Rule → String
  | .indices_rank => "INDICES must be a vector"
  | .lengths_rank => "LENGTHS must be a vector"
  | .weights_rank => "WEIGHTS must be a vector"
  | .weights_count => "WEIGHTS should have the same length as INDICES."
  | .data_width => "DATA must have more than 8 columns"

/-- The error that belongs to a rule: the enforcement with the two compared
values and the message of the rule. -/
def Rule.error (op : SparseLengthsFused8BitRowwiseOp) (ins : Nat → Tensor) : Rule → Err
  | .indices_rank => .enforce_eq (op.Input ins .INDICES).dim 1 Rule.indices_rank.message
  | .lengths_rank => .enforce_eq (op.Input ins .LENGTHS).dim 1 Rule.lengths_rank.message
  | .weights_rank => .enforce_eq (op.Input ins .WEIGHTS).dim 1 Rule.weights_rank.message
  | .weights_count => .enforce_eq (op.Input ins .WEIGHTS).numel (op.Input ins .INDICES).numel
      Rule.weights_count.message
  | .data_width => .enforce_gt (op.Input ins .DATA).columns 8 Rule.data_width.message

/-- Plain sum: neither flag. -/
def sumOp : SparseLengthsFused8BitRowwiseOp := ⟨false, false, rfl⟩

/-- Weighted sum: `with_weights` only. -/
def weightedSumOp : SparseLengthsFused8BitRowwiseOp := ⟨true, false, rfl⟩

/-- Mean: `is_mean` only. -/
def meanOp : SparseLengthsFused8BitRowwiseOp := ⟨false, true, rfl⟩

/-- An empty byte tensor, for the slots an input list does not fill. -/
def emptyTensor : Tensor := ⟨.uint8, [0], [], rfl⟩

/-- An input list as a function of the slot number. -/
def inputs (l : List Tensor) : Nat → Tensor := fun n => l.getD n emptyTensor

/-- A table of one row and nine columns: one quantized byte, scale and bias. -/
def data1x9 : Tensor := ⟨.uint8, [1, 9], [7, 0, 0, 128, 63, 0, 0, 0, 0], rfl⟩

/-- A vector of `int32_t`. -/
def vec32 (l : List Int) : Tensor := ⟨.int32, [l.length], l, by simp⟩

/-- A vector of `int64_t`. -/
def vec64 (l : List Int) : Tensor := ⟨.int64, [l.length], l, by simp⟩

/-- A vector of `float`, given by bit patterns. -/
def vecFloat (l : List Int) : Tensor := ⟨.float32, [l.length], l, by simp⟩

/-- A kernel that reports failure and leaves OUTPUT empty. -/
def failingKernel : Kernel := fun _ => (false, [])

/-- A kernel that reports success. -/
def succeedingKernel : Kernel := fun _ => (true, [])

/-- Valid inputs with 32-bit INDICES: one row, INDICES = [0], LENGTHS = [1]. -/
def validInputs32 : Nat → Tensor := inputs [data1x9, vec32 [0], vec32 [1]]

/-- The same valid inputs with 64-bit INDICES. -/
def validInputs64 : Nat → Tensor := inputs [data1x9, vec64 [0], vec32 [1]]

/-- Valid inputs of weighted mode: DATA, WEIGHTS, INDICES, LENGTHS. -/
def validWeightedInputs : Nat → Tensor :=
  inputs [data1x9, vecFloat [1065353216, 0], vec32 [0, 0], vec32 [1, 1]]

/-- One row, 64-bit INDICES = [5] (out of range), LENGTHS = [1]. -/
def outOfRangeInputs64 : Nat → Tensor := inputs [data1x9, vec64 [5], vec32 [1]]

/-- One row, 32-bit INDICES = [0, 5, 7] (out of range from position 1 on),
LENGTHS = [1, 2]. -/
def outOfRangeInputs32 : Nat → Tensor := inputs [data1x9, vec32 [0, 5, 7], vec32 [1, 2]]

/-- One row, INDICES = [5], LENGTHS = [2]: the LENGTHS sum to more than the
number of INDICES and the first index is out of range. -/
def overrunOutOfRangeInputs : Nat → Tensor := inputs [data1x9, vec32 [5], vec32 [2]]

/-- One row, INDICES = [0, 0, 0], LENGTHS = [-1, 3]: the LENGTHS sum to 2. -/
def negativeLengthInputs : Nat → Tensor := inputs [data1x9, vec32 [0, 0, 0], vec32 [-1, 3]]

/-- One row, INDICES = [0, 0], LENGTHS = [1]: one index is left over. -/
def underrunInputs : Nat → Tensor := inputs [data1x9, vec32 [0, 0], vec32 [1]]

/-- Weighted inputs that break two rules at once: WEIGHTS has one element for
two INDICES, and DATA has only eight columns. -/
def shortWeightsNarrowData : Nat → Tensor :=
  inputs [⟨.uint8, [1, 8], [0, 0, 0, 0, 0, 0, 0, 0], rfl⟩, vecFloat [0], vec32 [0, 0],
    vec32 [2]]

/-! ## The walk on sequences, and the walk with its reads recorded -/

/-- Lines 82-103 on the buffers the fallback has read: the two loops, then
`CAFFE_ENFORCE_EQ(current, index_size, ...)` and `return true`. -/
def fallbackWalk (lengths_ indices_ : List Int) (output_size index_size data_size : Nat) :
    Except Err Bool :=
  match outerLoop lengths_ indices_ index_size data_size output_size 0 0 with
  | .error e => .error e
  | .ok current =>
    if current = index_size then .ok true
    else .error (.enforce_eq current index_size sum_of_lengths_msg)

/-- The fallback walk for a LENGTHS sequence, an INDICES sequence and a
number of rows: one segment per element of LENGTHS, `index_size` the number
of INDICES. -/
def walk (lengths_ indices_ : List Int) (num_rows : Nat) : Except Err Bool :=
  fallbackWalk lengths_ indices_ lengths_.length indices_.length num_rows

/-- Valid inputs of weighted mode with 64-bit INDICES. -/
def validWeightedInputs64 : Nat → Tensor :=
  inputs [data1x9, vecFloat [1065353216, 0], vec64 [0, 0], vec32 [1, 1]]

/-- One row, 64-bit INDICES = [0], LENGTHS = [2]: the LENGTHS ask for one
index more than there is. -/
def overrunInputs64 : Nat → Tensor := inputs [data1x9, vec64 [0], vec32 [2]]

/-- The same with 32-bit INDICES. -/
def overrunInputs32 : Nat → Tensor := inputs [data1x9, vec32 [0], vec32 [2]]

/-- One row, 64-bit INDICES = [0, 0, 0], LENGTHS = [1, 2]. -/
def twoSegmentInputs64 : Nat → Tensor := inputs [data1x9, vec64 [0, 0, 0], vec32 [1, 2]]

/-- The same with 32-bit INDICES. -/
def twoSegmentInputs32 : Nat → Tensor := inputs [data1x9, vec32 [0, 0, 0], vec32 [1, 2]]

/-- One row, INDICES = [0, 0], LENGTHS = [-1, 3]: the LENGTHS sum to the
number of INDICES. -/
def negativeLengthOverrunInputs : Nat → Tensor :=
  inputs [data1x9, vec32 [0, 0], vec32 [-1, 3]]

/-! ## The shape of a validated run -/

theorem Tensor.sizes_of_dim_one (t : Tensor) (h : t.dim = 1) : t.sizes = [t.numel] := by
  unfold Tensor.dim at h
  unfold Tensor.numel
  match hs : t.sizes with
  | [] => simp [hs] at h
  | [n] => simp
  | _ :: _ :: _ => simp [hs] at h

theorem Tensor.size_zero_of_dim_one (t : Tensor) (h : t.dim = 1) :
    t.size 0 = .ok t.numel := by
  unfold Tensor.size
  rw [t.sizes_of_dim_one h]
  rfl

theorem Tensor.length_elems (t : Tensor) : t.elems.length = t.numel := t.numel_eq

theorem Tensor.size_one_of_columns (t : Tensor) (h : 8 < t.columns) :
    t.size 1 = .ok t.columns := by
  unfold Tensor.columns at h
  unfold Tensor.size Tensor.columns
  match hs : t.sizes with
  | [] => simp [hs] at h
  | [_] => simp [hs] at h
  | _ :: c :: _ => simp

theorem Tensor.size_zero_of_columns (t : Tensor) (h : 8 < t.columns) :
    t.size 0 = .ok t.rows := by
  unfold Tensor.columns at h
  unfold Tensor.size Tensor.rows
  match hs : t.sizes with
  | [] => simp [hs] at h
  | [_] => simp [hs] at h
  | r :: _ :: _ => simp

theorem readWeights_of_validated (op : SparseLengthsFused8BitRowwiseOp) (T : IndexType)
    (ins : Nat → Tensor) (hv : Validated op ins) (ht : WellTyped op T ins) :
    readWeights op.with_weights (op.Input ins .WEIGHTS) (op.Input ins .INDICES) =
      .ok (kernelArgs op T ins).weights := by
  obtain ⟨_, _, hw, _⟩ := hv
  obtain ⟨_, _, _, _, hk⟩ := ht
  unfold readWeights kernelArgs
  cases hww : op.with_weights with
  | false => simp
  | true =>
    obtain ⟨h1, h2⟩ := hw hww
    have h3 := hk hww
    simp [h1, h2, Tensor.data, h3]

/-- A validated run of well-typed inputs allocates OUTPUT, calls the kernel
once and, if the kernel fails, ends as the fallback does. -/
theorem DoRunWithType_of_validated (op : SparseLengthsFused8BitRowwiseOp) (T : IndexType)
    (kernel : Kernel) (ins : Nat → Tensor) (hv : Validated op ins)
    (ht : WellTyped op T ins) :
    DoRunWithType op T kernel ins =
      { reads := readsOf op.with_weights
        output := some [((op.Input ins .LENGTHS).numel : Int),
          ((op.Input ins .DATA).columns : Int) - 8]
        calls := [kernelArgs op T ins]
        out_data := some (kernel (kernelArgs op T ins)).2
        result := if (kernel (kernelArgs op T ins)).1 then .ok true
          else fallback T (op.Input ins .LENGTHS).numel (op.Input ins .DATA)
            (op.Input ins .INDICES) (op.Input ins .LENGTHS) } := by
  have hw := readWeights_of_validated op T ins hv ht
  obtain ⟨hi, hl, _, hc⟩ := hv
  obtain ⟨hdk, _, hik, hlk, _⟩ := ht
  unfold DoRunWithType
  simp only [hi, hl, hw, if_true, Tensor.size_one_of_columns _ hc, hc,
    Tensor.size_zero_of_dim_one _ hl]
  unfold callKernel
  simp only [Tensor.size_zero_of_columns _ hc, Tensor.data, hdk, hik, hlk, if_true]
  have ha : ({ index_type := T
               block_size := [((op.Input ins .LENGTHS).numel : Int),
                 ((op.Input ins .DATA).columns : Int) - 8].getD 1 0
               output_size := [((op.Input ins .LENGTHS).numel : Int),
                 ((op.Input ins .DATA).columns : Int) - 8].getD 0 0
               index_size := (op.Input ins .INDICES).numel
               data_size := (op.Input ins .DATA).rows
               input := (op.Input ins .DATA).elems
               indices := (op.Input ins .INDICES).elems
               lengths := (op.Input ins .LENGTHS).elems
               weights := (kernelArgs op T ins).weights
               normalize_by_lengths := op.is_mean
               prefetch_distance := 16 } : KernelArgs) = kernelArgs op T ins := by
    simp [kernelArgs]
  simp only [ha]
  split <;> simp_all



theorem get?_eq_getD (l : List Int) (c : Nat) (h : c < l.length) :
    l.get? c = some (l.getD c 0) := by
  simp [List.getD, List.getElem?_eq_getElem h]

theorem innerLoop_succ (I : List Int) (n d N c : Nat) (hc : c < n) (hn : n ≤ I.length) :
    innerLoop I n d (N + 1) c =
      if InRange d (I.getD c 0) then innerLoop I n d N (c + 1)
      else .error (.index_out_of_bounds c (I.getD c 0) d) := by
  have hg := get?_eq_getD I c (lt_of_lt_of_le hc hn)
  simp only [innerLoop, hc, if_true, hg, InRange]

theorem innerLoop_succ_overrun (I : List Int) (n d N c : Nat) (hc : n ≤ c) :
    innerLoop I n d (N + 1) c = .error (.enforce_lt c n) := by
  simp [innerLoop, Nat.not_lt.mpr hc]

theorem innerLoop_add (I : List Int) (n d : Nat) (a b c : Nat) :
    innerLoop I n d (a + b) c =
      match innerLoop I n d a c with
      | .error e => .error e
      | .ok c1 => innerLoop I n d b c1 := by
  induction a generalizing c with
  | zero => simp [innerLoop]
  | succ a ih =>
    rw [Nat.add_right_comm]
    simp only [innerLoop]
    split
    · split
      · rfl
      · split
        · exact ih _
        · rfl
    · rfl

theorem walkSegments_eq_innerLoop (I : List Int) (n d : Nat) (lens : List Int) (c : Nat) :
    walkSegments I n d lens c = innerLoop I n d (consumed lens) c := by
  induction lens generalizing c with
  | nil => simp [walkSegments, consumed, innerLoop]
  | cons len rest ih =>
    have hc : consumed (len :: rest) = len.toNat + consumed rest := by
      simp [consumed]
    rw [hc, innerLoop_add]
    simp only [walkSegments]
    cases innerLoop I n d len.toNat c with
    | error e => rfl
    | ok c1 => exact ih c1

theorem outerLoop_eq_walkSegments (L I : List Int) (n d : Nat) (k m c : Nat)
    (h : m + k = L.length) :
    outerLoop L I n d k m c = walkSegments I n d (L.drop m) c := by
  induction k generalizing m c with
  | zero =>
    have : L.drop m = [] := by
      apply List.drop_eq_nil_of_le; omega
    simp [outerLoop, this, walkSegments]
  | succ k ih =>
    have hm : m < L.length := by omega
    have hd : L.drop m = L.getD m 0 :: L.drop (m + 1) := by
      rw [List.drop_eq_getElem_cons hm]
      simp [List.getD, List.getElem?_eq_getElem hm]
    simp only [outerLoop, get?_eq_getD L m hm, hd, walkSegments]
    cases innerLoop I n d (L.getD m 0).toNat c with
    | error e => rfl
    | ok c1 => exact ih (m + 1) c1 (by omega)


theorem innerLoop_ok_iff (I : List Int) (n d : Nat) (hn : n ≤ I.length) (N c c1 : Nat) :
    innerLoop I n d N c = .ok c1 ↔
      c1 = c + N ∧ ∀ p, c ≤ p → p < c + N → p < n ∧ InRange d (I.getD p 0) := by
  induction N generalizing c with
  | zero =>
    simp only [innerLoop, Except.ok.injEq, Nat.add_zero]
    constructor
    · intro h; exact ⟨h.symm, fun p h1 h2 => by omega⟩
    · intro h; exact h.1.symm
  | succ N ih =>
    by_cases hc : c < n
    · rw [innerLoop_succ I n d N c hc hn]
      by_cases hr : InRange d (I.getD c 0)
      · rw [if_pos hr, ih]
        constructor
        · rintro ⟨h1, h2⟩
          refine ⟨by omega, fun p hp1 hp2 => ?_⟩
          by_cases hpc : p = c
          · subst hpc; exact ⟨hc, hr⟩
          · exact h2 p (by omega) (by omega)
        · rintro ⟨h1, h2⟩
          exact ⟨by omega, fun p hp1 hp2 => h2 p (by omega) (by omega)⟩
      · rw [if_neg hr]
        constructor
        · intro h; cases h
        · rintro ⟨_, h2⟩
          exact absurd (h2 c (le_refl c) (by omega)).2 hr
    · rw [innerLoop_succ_overrun I n d N c (by omega)]
      constructor
      · intro h; cases h
      · rintro ⟨_, h2⟩
        exact absurd (h2 c (le_refl c) (by omega)).1 hc

/-- The walk stops at the first position that holds an out-of-range value. -/
theorem innerLoop_out_of_bounds (I : List Int) (n d : Nat) (hn : n ≤ I.length) (N c p : Nat)
    (hcp : c ≤ p) (hpN : p < c + N) (hpn : p < n) (hbad : ¬ InRange d (I.getD p 0))
    (hgood : ∀ q, c ≤ q → q < p → InRange d (I.getD q 0)) :
    innerLoop I n d N c = .error (.index_out_of_bounds p (I.getD p 0) d) := by
  induction N generalizing c with
  | zero => omega
  | succ N ih =>
    have hc : c < n := by omega
    rw [innerLoop_succ I n d N c hc hn]
    by_cases hpc : p = c
    · subst hpc; rw [if_neg hbad]
    · rw [if_pos (hgood c (le_refl c) (by omega))]
      exact ih (c + 1) (by omega) (by omega) (fun q h1 h2 => hgood q (by omega) h2)

/-- With every remaining position in range, a walk that wants more indices
than there are stops at the end of INDICES. -/
theorem innerLoop_overrun (I : List Int) (n d : Nat) (hn : n ≤ I.length) (N c : Nat)
    (hcn : c ≤ n) (hN : n < c + N)
    (hgood : ∀ q, c ≤ q → q < n → InRange d (I.getD q 0)) :
    innerLoop I n d N c = .error (.enforce_lt n n) := by
  induction N generalizing c with
  | zero => omega
  | succ N ih =>
    by_cases hc : c < n
    · rw [innerLoop_succ I n d N c hc hn, if_pos (hgood c (le_refl c) hc)]
      exact ih (c + 1) (by omega) (by omega) (fun q h1 h2 => hgood q (by omega) h2)
    · have : c = n := by omega
      subst this
      exact innerLoop_succ_overrun I c d N c (le_refl c)


/-- The fallback at `int32_t`, on a vector of LENGTHS held as `int`: the walk
checks `consumed` positions in a row, then compares the cursor with the
number of INDICES. -/
theorem fallback_int32 (data indices lengths : Tensor)
    (hc : 8 < data.columns) (hik : indices.kind = .int32) (hlk : lengths.kind = .int32) :
    fallback .int32_t lengths.numel data indices lengths =
      match innerLoop indices.elems indices.numel data.rows (consumed lengths.elems) 0 with
      | .error e => .error e
      | .ok current =>
        if current = indices.numel then .ok true
        else .error (.enforce_eq current indices.numel sum_of_lengths_msg) := by
  unfold fallback
  simp only [Tensor.data, IndexType.kind, hik, hlk, if_true, Tensor.size_zero_of_columns _ hc]
  rw [outerLoop_eq_walkSegments _ _ _ _ _ _ _ (by simp [Tensor.length_elems]),
    List.drop_zero, walkSegments_eq_innerLoop]

/-- Every position of a list holds an in-range value exactly if every member
is in range. -/
theorem forall_getD_iff (I : List Int) (d : Nat) :
    (∀ p, p < I.length → InRange d (I.getD p 0)) ↔ ∀ x ∈ I, InRange d x := by
  constructor
  · intro h x hx
    obtain ⟨p, hp, rfl⟩ := List.getElem_of_mem hx
    have := h p hp
    simpa [List.getD, List.getElem?_eq_getElem hp] using this
  · intro h p hp
    have : I.getD p 0 = I[p] := by simp [List.getD, List.getElem?_eq_getElem hp]
    rw [this]
    exact h _ (List.getElem_mem hp)

/-- The outcome of the walk from position 0, case by case. -/
theorem innerLoop_cases (I : List Int) (d N : Nat) :
    (innerLoop I I.length d N 0 = .ok N ∧ N ≤ I.length ∧
        ∀ p, p < N → InRange d (I.getD p 0)) ∨
    (innerLoop I I.length d N 0 = .error (.enforce_lt I.length I.length) ∧ I.length < N ∧
        ∀ p, p < I.length → InRange d (I.getD p 0)) ∨
    (∃ p : Nat, innerLoop I I.length d N 0 = .error (.index_out_of_bounds p (I.getD p 0) d) ∧
        p < N ∧ p < I.length ∧ ¬ InRange d (I.getD p 0) ∧
        ∀ q, q < p → InRange d (I.getD q 0)) := by
  by_cases hbad : ∃ p, p < N ∧ p < I.length ∧ ¬ InRange d (I.getD p 0)
  · right; right
    classical
    refine ⟨Nat.find hbad, ?_, (Nat.find_spec hbad).1, (Nat.find_spec hbad).2.1,
      (Nat.find_spec hbad).2.2, ?_⟩
    · apply innerLoop_out_of_bounds I I.length d (le_refl _) N 0 _ (Nat.zero_le _)
      · simpa using (Nat.find_spec hbad).1
      · exact (Nat.find_spec hbad).2.1
      · exact (Nat.find_spec hbad).2.2
      · intro q _ hq
        by_contra hq2
        exact Nat.find_min hbad hq
          ⟨lt_trans hq (Nat.find_spec hbad).1, lt_trans hq (Nat.find_spec hbad).2.1, hq2⟩
    · intro q hq
      by_contra hq2
      exact Nat.find_min hbad hq
        ⟨lt_trans hq (Nat.find_spec hbad).1, lt_trans hq (Nat.find_spec hbad).2.1, hq2⟩
  · have hgood : ∀ p, p < N → p < I.length → InRange d (I.getD p 0) := by
      intro p h1 h2
      by_contra h3
      exact hbad ⟨p, h1, h2, h3⟩
    by_cases hN : N ≤ I.length
    · left
      refine ⟨?_, hN, fun p hp => hgood p hp (by omega)⟩
      rw [innerLoop_ok_iff I I.length d (le_refl _)]
      exact ⟨by simp, fun p _ hp => ⟨by omega, hgood p (by omega) (by omega)⟩⟩
    · right; left
      refine ⟨?_, by omega, fun p hp => hgood p (by omega) hp⟩
      exact innerLoop_overrun I I.length d (le_refl _) N 0 (Nat.zero_le _) (by omega)
        (fun q _ hq => hgood q (by omega) hq)

/-- For non-negative lengths the walk sets out to check `sum(LENGTHS)` positions. -/
theorem consumed_of_nonneg (L : List Int) (h : ∀ l ∈ L, 0 ≤ l) :
    ((consumed L : Nat) : Int) = L.sum := by
  induction L with
  | nil => simp [consumed]
  | cons a rest ih =>
    have h1 : 0 ≤ a := h a (List.mem_cons_self _ _)
    have h2 := ih (fun l hl => h l (List.mem_cons_of_mem _ hl))
    have hc : consumed (a :: rest) = a.toNat + consumed rest := by simp [consumed]
    rw [hc, List.sum_cons]
    push_cast
    rw [h2, Int.toNat_of_nonneg h1]



/-! ## Valid inputs -/

/-- Valid, well-typed inputs make the operator return success when the kernel
succeeds, and also when it fails and the index kind is `int32_t`: the
fallback then walks all of INDICES and finds nothing to report. -/
theorem DoRunWithType_valid_returns_true (op : SparseLengthsFused8BitRowwiseOp)
    (T : IndexType) (kernel : Kernel) (ins : Nat → Tensor) (hv : Validated op ins)
    (ht : WellTyped op T ins) (hx : ValidIndexing op ins)
    (h : T = .int32_t ∨ (kernel (kernelArgs op T ins)).1 = true) :
    (DoRunWithType op T kernel ins).result = .ok true := by
  rw [DoRunWithType_of_validated op T kernel ins hv ht]
  simp only
  cases hk : (kernel (kernelArgs op T ins)).1 with
  | true => simp
  | false =>
    rcases h with h | h
    · subst h
      simp only [Bool.false_eq_true, if_false]
      rw [fallback_int32 _ _ _ hv.2.2.2 ht.2.2.1 ht.2.2.2.1]
      obtain ⟨h1, h2, h3⟩ := hx
      have hc := consumed_of_nonneg _ h1
      rw [h2] at hc
      have hc2 : consumed (op.Input ins .LENGTHS).elems = (op.Input ins .INDICES).numel := by
        exact_mod_cast hc
      have hlen := (op.Input ins .INDICES).length_elems
      have hok : innerLoop (op.Input ins .INDICES).elems (op.Input ins .INDICES).numel
          (op.Input ins .DATA).rows (consumed (op.Input ins .LENGTHS).elems) 0 =
          .ok (op.Input ins .INDICES).numel := by
        rw [innerLoop_ok_iff _ _ _ (by omega)]
        refine ⟨by omega, fun p _ hp => ⟨by omega, ?_⟩⟩
        exact (forall_getD_iff _ _).mpr h3 p (by omega)
      rw [hok]
      simp
    · rw [hk] at h; cases h

/-- C1, at the failing input. The inputs are valid (INDICES = [0] of 64-bit
kind, LENGTHS = [1], a table of one row and nine columns, sum mode) and the
kernel reports failure: the operator does not return success, it raises the
type mismatch of `lengths.data<IndexType>()` on the LENGTHS tensor that
holds `int`. -/
theorem C1_valid_int64_kernel_failure_raises :
    Validated sumOp validInputs64 ∧ WellTyped sumOp .int64_t validInputs64 ∧
    ValidIndexing sumOp validInputs64 ∧
    KernelFails sumOp .int64_t failingKernel validInputs64 ∧
    (DoRunWithType sumOp .int64_t failingKernel validInputs64).result =
      .error (.type_mismatch .int64 .int32) :=
  ⟨by decide, by decide, by decide, by decide, rfl⟩

/-! ## The output shape -/

/-- C2. A validated run allocates OUTPUT with the two dimensions
(number of elements of LENGTHS, columns of DATA minus 8); the second is at
least 1, and exactly 1 for a table of 9 columns; any other validated run,
whatever its mode, index kind, INDICES values and kernel, allocates the same
shape when LENGTHS has as many elements and DATA as many columns. -/
theorem C2_output_shape (op : SparseLengthsFused8BitRowwiseOp) (T : IndexType)
    (kernel : Kernel) (ins : Nat → Tensor) (hv : Validated op ins)
    (ht : WellTyped op T ins) :
    (DoRunWithType op T kernel ins).output =
      some [((op.Input ins .LENGTHS).numel : Int), ((op.Input ins .DATA).columns : Int) - 8] ∧
    (1 : Int) ≤ ((op.Input ins .DATA).columns : Int) - 8 ∧
    ((op.Input ins .DATA).columns = 9 → ((op.Input ins .DATA).columns : Int) - 8 = 1) ∧
    ∀ (op2 : SparseLengthsFused8BitRowwiseOp) (T2 : IndexType) (kernel2 : Kernel)
      (ins2 : Nat → Tensor), Validated op2 ins2 → WellTyped op2 T2 ins2 →
      (op2.Input ins2 .LENGTHS).numel = (op.Input ins .LENGTHS).numel →
      (op2.Input ins2 .DATA).columns = (op.Input ins .DATA).columns →
      (DoRunWithType op2 T2 kernel2 ins2).output = (DoRunWithType op T kernel ins).output := by
  have hc : 8 < (op.Input ins .DATA).columns := hv.2.2.2
  refine ⟨?_, by omega, fun h => by omega, ?_⟩
  · rw [DoRunWithType_of_validated op T kernel ins hv ht]
  · intro op2 T2 kernel2 ins2 hv2 ht2 hl hd
    rw [DoRunWithType_of_validated op T kernel ins hv ht,
      DoRunWithType_of_validated op2 T2 kernel2 ins2 hv2 ht2]
    simp only [hl, hd]

/-- C2 at valid inputs with a table of nine columns and one segment: the
shape is (1, 1). -/
theorem C2_output_shape_witness :
    (Validated sumOp validInputs32 ∧ WellTyped sumOp .int32_t validInputs32) ∧
    (DoRunWithType sumOp .int32_t succeedingKernel validInputs32).output = some [1, 1] := by
  refine ⟨⟨by decide, by decide⟩, ?_⟩
  have h := (C2_output_shape sumOp .int32_t succeedingKernel validInputs32
    (by decide) (by decide)).1
  rw [h]
  rfl


/-! ## Validation -/

theorem Tensor.columns_of_size_one (t : Tensor) (c : Nat) (h : t.size 1 = .ok c) :
    t.columns = c := by
  unfold Tensor.size at h
  unfold Tensor.columns
  match hs : t.sizes with
  | [] => simp [hs] at h
  | [_] => simp [hs] at h
  | _ :: c1 :: _ => simp [hs] at h; simp [h]

theorem readWeights_ok (w : Bool) (weights_input indices : Tensor) (r : Option (List Int))
    (h : readWeights w weights_input indices = .ok r) :
    w = true → weights_input.dim = 1 ∧ weights_input.numel = indices.numel := by
  intro hw
  subst hw
  unfold readWeights at h
  by_cases h1 : weights_input.dim = 1
  · by_cases h2 : weights_input.numel = indices.numel
    · exact ⟨h1, h2⟩
    · simp [h1, h2] at h
  · simp [h1] at h

theorem callKernel_reads (op : SparseLengthsFused8BitRowwiseOp) (T : IndexType)
    (kernel : Kernel) (data indices lengths : Tensor) (weights : Option (List Int))
    (shape : List Int) (output_size : Nat) :
    (callKernel op T kernel data indices lengths weights shape output_size).reads =
      readsOf op.with_weights := by
  unfold callKernel
  split
  · simp only
    split <;> rfl
  all_goals rfl

/-- A run that does not pass validation raises before OUTPUT is allocated and
before the kernel is called. -/
theorem DoRunWithType_of_not_validated (op : SparseLengthsFused8BitRowwiseOp)
    (T : IndexType) (kernel : Kernel) (ins : Nat → Tensor) (hv : ¬ Validated op ins) :
    ∃ rd e, DoRunWithType op T kernel ins = Run.raise rd e := by
  unfold DoRunWithType
  by_cases hi : (op.Input ins .INDICES).dim = 1
  · by_cases hl : (op.Input ins .LENGTHS).dim = 1
    · simp only [hi, hl, if_true]
      cases hw : readWeights op.with_weights (op.Input ins .WEIGHTS) (op.Input ins .INDICES) with
      | error e => exact ⟨_, _, rfl⟩
      | ok weights =>
        cases hs : (op.Input ins .DATA).size 1 with
        | error e => exact ⟨_, _, rfl⟩
        | ok cols =>
          by_cases hc : cols > 8
          · exfalso
            apply hv
            refine ⟨hi, hl, readWeights_ok _ _ _ _ hw, ?_⟩
            rw [Tensor.columns_of_size_one _ _ hs]
            exact hc
          · simp only [hc, if_false]
            exact ⟨_, _, rfl⟩
    · simp only [hi, hl, if_true, if_false]
      exact ⟨_, _, rfl⟩
  · simp only [hi, if_false]
    exact ⟨_, _, rfl⟩

/-- The slots a run fetches are DATA, INDICES, LENGTHS and, in weighted mode
only, WEIGHTS. -/
theorem DoRunWithType_reads (op : SparseLengthsFused8BitRowwiseOp)
    (T : IndexType) (kernel : Kernel) (ins : Nat → Tensor) :
    (DoRunWithType op T kernel ins).reads = [.DATA, .INDICES, .LENGTHS] ∨
    (DoRunWithType op T kernel ins).reads = readsOf op.with_weights := by
  unfold DoRunWithType
  by_cases hi : (op.Input ins .INDICES).dim = 1
  · by_cases hl : (op.Input ins .LENGTHS).dim = 1
    · simp only [hi, hl, if_true]
      right
      cases hw : readWeights op.with_weights (op.Input ins .WEIGHTS) (op.Input ins .INDICES) with
      | error e => rfl
      | ok weights =>
        cases hs : (op.Input ins .DATA).size 1 with
        | error e => rfl
        | ok cols =>
          by_cases hc : cols > 8
          · simp only [hc, if_true]
            cases hz : (op.Input ins .LENGTHS).size 0 with
            | error e => rfl
            | ok n => exact callKernel_reads _ _ _ _ _ _ _ _ _
          · simp only [hc, if_false]
            rfl
    · simp only [hi, hl, if_true, if_false]
      left; rfl
  · simp only [hi, if_false]
    left; rfl

/-- In the modes without weights the run is a function of slots 0, 1 and 2. -/
theorem DoRunWithType_congr_unweighted (op : SparseLengthsFused8BitRowwiseOp)
    (T : IndexType) (kernel : Kernel) (ins ins2 : Nat → Tensor)
    (hw : op.with_weights = false) (h0 : ins2 0 = ins 0) (h1 : ins2 1 = ins 1)
    (h2 : ins2 2 = ins 2) :
    DoRunWithType op T kernel ins2 = DoRunWithType op T kernel ins := by
  have h : ∀ s, op.Input ins2 s = op.Input ins s := by
    intro s
    cases s <;> simp [SparseLengthsFused8BitRowwiseOp.Input, Slot.index, hw, h0, h1, h2]
  unfold DoRunWithType
  simp only [h]

/-- C3. On well-typed inputs the kernel is called exactly if the four
validation rules hold; if one is violated the run ends in an enforcement
failure with OUTPUT not allocated and the kernel not called; and in the modes
without weights the slot WEIGHTS is never fetched: the run is determined by
the tensors in slots 0, 1 and 2. -/
theorem C3_kernel_reached_iff_validated (op : SparseLengthsFused8BitRowwiseOp)
    (T : IndexType) (kernel : Kernel) (ins : Nat → Tensor) (ht : WellTyped op T ins) :
    ((DoRunWithType op T kernel ins).calls ≠ [] ↔ Validated op ins) ∧
    (¬ Validated op ins → ∃ e, (DoRunWithType op T kernel ins).result = .error e ∧
      (DoRunWithType op T kernel ins).output = none ∧
      (DoRunWithType op T kernel ins).calls = []) ∧
    (op.with_weights = false → Slot.WEIGHTS ∉ (DoRunWithType op T kernel ins).reads ∧
      ∀ ins2 : Nat → Tensor, ins2 0 = ins 0 → ins2 1 = ins 1 → ins2 2 = ins 2 →
        DoRunWithType op T kernel ins2 = DoRunWithType op T kernel ins) := by
  refine ⟨⟨?_, ?_⟩, ?_, ?_⟩
  · intro hcalls
    by_contra hv
    obtain ⟨rd, e, h⟩ := DoRunWithType_of_not_validated op T kernel ins hv
    rw [h] at hcalls
    exact hcalls rfl
  · intro hv
    rw [DoRunWithType_of_validated op T kernel ins hv ht]
    simp
  · intro hv
    obtain ⟨rd, e, h⟩ := DoRunWithType_of_not_validated op T kernel ins hv
    exact ⟨e, by rw [h]; rfl, by rw [h]; rfl, by rw [h]; rfl⟩
  · intro hw
    refine ⟨?_, fun ins2 h0 h1 h2 => DoRunWithType_congr_unweighted op T kernel ins ins2 hw h0 h1 h2⟩
    rcases DoRunWithType_reads op T kernel ins with h | h <;> rw [h]
    · decide
    · rw [hw]; decide

/-- C3 at valid weighted inputs: the kernel is called. -/
theorem C3_kernel_reached_iff_validated_witness :
    WellTyped weightedSumOp .int32_t validWeightedInputs ∧
    Validated weightedSumOp validWeightedInputs ∧
    (DoRunWithType weightedSumOp .int32_t failingKernel validWeightedInputs).calls ≠ [] :=
  ⟨by decide, by decide,
    (C3_kernel_reached_iff_validated weightedSumOp .int32_t failingKernel validWeightedInputs
      (by decide)).1.mpr (by decide)⟩


/-! ## The fallback -/

/-- The result of a validated run at `int32_t` whose kernel call failed, case
by case. With `N` the number of positions the walk sets out to check and `n`
the number of INDICES: success when `N = n` and all values are in range; the
final check fails when `N < n`; the overrun check fails at cursor `n` when
`N > n`; and the first out-of-range value among the positions walked is
reported before any of these. -/
theorem kernel_failure_int32_cases (op : SparseLengthsFused8BitRowwiseOp) (kernel : Kernel)
    (ins : Nat → Tensor) (hv : Validated op ins) (ht : WellTyped op .int32_t ins)
    (hk : KernelFails op .int32_t kernel ins) :
    ((DoRunWithType op .int32_t kernel ins).result = .ok true ∧
        consumed (op.Input ins .LENGTHS).elems = (op.Input ins .INDICES).numel ∧
        ∀ p, p < (op.Input ins .INDICES).numel →
          InRange (op.Input ins .DATA).rows ((op.Input ins .INDICES).elems.getD p 0)) ∨
    ((DoRunWithType op .int32_t kernel ins).result =
          .error (.enforce_eq (consumed (op.Input ins .LENGTHS).elems)
            (op.Input ins .INDICES).numel sum_of_lengths_msg) ∧
        consumed (op.Input ins .LENGTHS).elems < (op.Input ins .INDICES).numel ∧
        ∀ p, p < consumed (op.Input ins .LENGTHS).elems →
          InRange (op.Input ins .DATA).rows ((op.Input ins .INDICES).elems.getD p 0)) ∨
    ((DoRunWithType op .int32_t kernel ins).result =
          .error (.enforce_lt (op.Input ins .INDICES).numel (op.Input ins .INDICES).numel) ∧
        (op.Input ins .INDICES).numel < consumed (op.Input ins .LENGTHS).elems ∧
        ∀ p, p < (op.Input ins .INDICES).numel →
          InRange (op.Input ins .DATA).rows ((op.Input ins .INDICES).elems.getD p 0)) ∨
    (∃ p : Nat, (DoRunWithType op .int32_t kernel ins).result =
          .error (.index_out_of_bounds p ((op.Input ins .INDICES).elems.getD p 0)
            (op.Input ins .DATA).rows) ∧
        p < consumed (op.Input ins .LENGTHS).elems ∧ p < (op.Input ins .INDICES).numel ∧
        ¬ InRange (op.Input ins .DATA).rows ((op.Input ins .INDICES).elems.getD p 0) ∧
        ∀ q, q < p →
          InRange (op.Input ins .DATA).rows ((op.Input ins .INDICES).elems.getD q 0)) := by
  have hr : (DoRunWithType op .int32_t kernel ins).result =
      match innerLoop (op.Input ins .INDICES).elems (op.Input ins .INDICES).elems.length
        (op.Input ins .DATA).rows (consumed (op.Input ins .LENGTHS).elems) 0 with
      | .error e => .error e
      | .ok current =>
        if current = (op.Input ins .INDICES).numel then .ok true
        else .error (.enforce_eq current (op.Input ins .INDICES).numel sum_of_lengths_msg) := by
    rw [DoRunWithType_of_validated op .int32_t kernel ins hv ht]
    have hk2 : (kernel (kernelArgs op .int32_t ins)).1 = false := hk
    simp only [hk2, Bool.false_eq_true, if_false]
    rw [fallback_int32 _ _ _ hv.2.2.2 ht.2.2.1 ht.2.2.2.1, Tensor.length_elems]
  have hlen := (op.Input ins .INDICES).length_elems
  rcases innerLoop_cases (op.Input ins .INDICES).elems (op.Input ins .DATA).rows
    (consumed (op.Input ins .LENGTHS).elems) with ⟨h1, h2, h3⟩ | ⟨h1, h2, h3⟩ | ⟨p, h1, h2, h3, h4, h5⟩
  · rw [h1] at hr
    by_cases he : consumed (op.Input ins .LENGTHS).elems = (op.Input ins .INDICES).numel
    · left
      refine ⟨by rw [hr]; simp [he], he, fun p hp => h3 p (by omega)⟩
    · right; left
      refine ⟨by rw [hr]; simp [he], by omega, h3⟩
  · rw [h1] at hr
    right; right; left
    refine ⟨by rw [hr, hlen], by omega, fun p hp => h3 p (by omega)⟩
  · rw [h1] at hr
    right; right; right
    exact ⟨p, hr, h2, by omega, h4, h5⟩

/-- At `int64_t` a validated run whose kernel call failed ends in the type
mismatch of `lengths.data<IndexType>()`: LENGTHS holds `int`, as line 65
reads it, and line 77 asks for `int64_t`. -/
theorem kernel_failure_int64 (op : SparseLengthsFused8BitRowwiseOp) (kernel : Kernel)
    (ins : Nat → Tensor) (hv : Validated op ins) (ht : WellTyped op .int64_t ins)
    (hk : KernelFails op .int64_t kernel ins) :
    (DoRunWithType op .int64_t kernel ins).result = .error (.type_mismatch .int64 .int32) := by
  rw [DoRunWithType_of_validated op .int64_t kernel ins hv ht]
  have hk2 : (kernel (kernelArgs op .int64_t ins)).1 = false := hk
  simp only [hk2, Bool.false_eq_true, if_false]
  unfold fallback
  simp [Tensor.data, IndexType.kind, ht.2.2.2.1]

/-- C4, as amended. A validated run whose kernel call failed either raises
or returns success. It returns success only if the walk has nothing to
report: the segments ask for as many positions as INDICES has (`max(0, len)`
for each segment) and every INDICES value is in range. At `int32_t` it does
return success in that case. -/
theorem C4_kernel_failure_success_iff (op : SparseLengthsFused8BitRowwiseOp) (T : IndexType)
    (kernel : Kernel) (ins : Nat → Tensor) (hv : Validated op ins) (ht : WellTyped op T ins)
    (hk : KernelFails op T kernel ins) :
    ((DoRunWithType op T kernel ins).result = .ok true ∨
      ∃ e, (DoRunWithType op T kernel ins).result = .error e) ∧
    ((DoRunWithType op T kernel ins).result = .ok true →
      consumed (op.Input ins .LENGTHS).elems = (op.Input ins .INDICES).numel ∧
      ∀ x ∈ (op.Input ins .INDICES).elems, InRange (op.Input ins .DATA).rows x) ∧
    (T = .int32_t →
      consumed (op.Input ins .LENGTHS).elems = (op.Input ins .INDICES).numel →
      (∀ x ∈ (op.Input ins .INDICES).elems, InRange (op.Input ins .DATA).rows x) →
      (DoRunWithType op T kernel ins).result = .ok true) := by
  cases T with
  | int64_t =>
    have h := kernel_failure_int64 op kernel ins hv ht hk
    refine ⟨Or.inr ⟨_, h⟩, fun h2 => ?_, fun h2 => by cases h2⟩
    rw [h] at h2; cases h2
  | int32_t =>
    have hlen := (op.Input ins .INDICES).length_elems
    rcases kernel_failure_int32_cases op kernel ins hv ht hk with
      ⟨h1, h2, h3⟩ | ⟨h1, h2, h3⟩ | ⟨h1, h2, h3⟩ | ⟨p, h1, h2, h3, h4, h5⟩
    · refine ⟨Or.inl h1, fun _ => ⟨h2, ?_⟩, fun _ _ _ => h1⟩
      exact (forall_getD_iff _ _).mp (fun p hp => h3 p (by omega))
    · refine ⟨Or.inr ⟨_, h1⟩, fun h => ?_, fun _ h _ => ?_⟩
      · rw [h1] at h; cases h
      · omega
    · refine ⟨Or.inr ⟨_, h1⟩, fun h => ?_, fun _ h _ => ?_⟩
      · rw [h1] at h; cases h
      · omega
    · refine ⟨Or.inr ⟨_, h1⟩, fun h => ?_, fun _ _ h => ?_⟩
      · rw [h1] at h; cases h
      · exact absurd ((forall_getD_iff _ _).mpr h p (by omega)) h4

/-- C4 as amended, at valid inputs of 32-bit kind and a failing kernel:
success. -/
theorem C4_kernel_failure_success_iff_witness :
    (Validated sumOp validInputs32 ∧ WellTyped sumOp .int32_t validInputs32 ∧
      KernelFails sumOp .int32_t failingKernel validInputs32) ∧
    (DoRunWithType sumOp .int32_t failingKernel validInputs32).result = .ok true :=
  ⟨⟨by decide, by decide, by decide⟩,
    (C4_kernel_failure_success_iff sumOp .int32_t failingKernel validInputs32
      (by decide) (by decide) (by decide)).2.2 rfl (by decide) (by decide)⟩

/-- C4 as stated fails: these inputs pass validation, the kernel reports
failure, and the operator returns success. -/
theorem C4_counterexample :
    Validated meanOp validInputs32 ∧ WellTyped meanOp .int32_t validInputs32 ∧
    KernelFails meanOp .int32_t failingKernel validInputs32 ∧
    (DoRunWithType meanOp .int32_t failingKernel validInputs32).result = .ok true :=
  ⟨by decide, by decide, by decide, rfl⟩


/-- At `int32_t`, with non-negative LENGTHS that sum to the number of INDICES
and some INDICES value out of range, the fallback raises the out-of-bounds
error for the smallest position that holds an out-of-range value, with that
value and the number of rows. -/
theorem fallback_reports_first_out_of_range (op : SparseLengthsFused8BitRowwiseOp)
    (kernel : Kernel) (ins : Nat → Tensor) (hv : Validated op ins)
    (ht : WellTyped op .int32_t ins) (hk : KernelFails op .int32_t kernel ins)
    (hn : ∀ l ∈ (op.Input ins .LENGTHS).elems, 0 ≤ l)
    (hs : (op.Input ins .LENGTHS).elems.sum = ((op.Input ins .INDICES).numel : Int))
    (hb : ∃ x ∈ (op.Input ins .INDICES).elems, ¬ InRange (op.Input ins .DATA).rows x) :
    ∃ p : Nat, p < (op.Input ins .INDICES).numel ∧
      ¬ InRange (op.Input ins .DATA).rows ((op.Input ins .INDICES).elems.getD p 0) ∧
      (∀ q, q < p →
        InRange (op.Input ins .DATA).rows ((op.Input ins .INDICES).elems.getD q 0)) ∧
      (DoRunWithType op .int32_t kernel ins).result =
        .error (.index_out_of_bounds p ((op.Input ins .INDICES).elems.getD p 0)
          (op.Input ins .DATA).rows) := by
  have hlen := (op.Input ins .INDICES).length_elems
  have hc := consumed_of_nonneg _ hn
  rw [hs] at hc
  have hc2 : consumed (op.Input ins .LENGTHS).elems = (op.Input ins .INDICES).numel := by
    exact_mod_cast hc
  have hbad : ¬ ∀ p, p < (op.Input ins .INDICES).numel →
      InRange (op.Input ins .DATA).rows ((op.Input ins .INDICES).elems.getD p 0) := by
    intro h
    obtain ⟨x, hx, hxr⟩ := hb
    exact hxr ((forall_getD_iff _ _).mp (fun p hp => h p (by omega)) x hx)
  rcases kernel_failure_int32_cases op kernel ins hv ht hk with
    ⟨h1, h2, h3⟩ | ⟨h1, h2, h3⟩ | ⟨h1, h2, h3⟩ | ⟨p, h1, h2, h3, h4, h5⟩
  · exact absurd h3 hbad
  · omega
  · omega
  · exact ⟨p, h3, h4, h5, h1⟩

/-- The out-of-bounds report at INDICES = [0, 5, 7] over one row: position 1,
value 5, range 0 to 1. -/
theorem fallback_reports_first_out_of_range_example :
    (DoRunWithType sumOp .int32_t failingKernel outOfRangeInputs32).result =
      .error (.index_out_of_bounds 1 5 1) := rfl

/-- C5, at the failing input. The inputs pass validation, the kernel reports
failure, LENGTHS = [1] sums to the number of INDICES, and INDICES = [5] of
64-bit kind is out of range for a table of one row: the run does not raise
the out-of-bounds error for position 0, it raises the type mismatch of
`lengths.data<IndexType>()` before the walk starts. -/
theorem C5_int64_out_of_range_not_reported :
    Validated sumOp outOfRangeInputs64 ∧ WellTyped sumOp .int64_t outOfRangeInputs64 ∧
    KernelFails sumOp .int64_t failingKernel outOfRangeInputs64 ∧
    (sumOp.Input outOfRangeInputs64 .LENGTHS).elems = [1] ∧
    (sumOp.Input outOfRangeInputs64 .INDICES).elems = [5] ∧
    (sumOp.Input outOfRangeInputs64 .DATA).rows = 1 ∧
    (DoRunWithType sumOp .int64_t failingKernel outOfRangeInputs64).result =
      .error (.type_mismatch .int64 .int32) ∧
    (DoRunWithType sumOp .int64_t failingKernel outOfRangeInputs64).result ≠
      .error (.index_out_of_bounds 0 5 1) :=
  ⟨by decide, by decide, by decide, rfl, rfl, rfl, rfl, fun h => by cases h⟩

/-- C6, as amended. A validated run whose kernel call failed, with
non-negative LENGTHS whose sum differs from the number of INDICES, never
returns success: it raises. At `int32_t` the error is the overrun error
(cursor at the end of INDICES) when the sum is larger, the final
length-mismatch error (cursor at the sum) when it is smaller, or, if the walk
meets an out-of-range value first, the out-of-bounds error for that position. -/
theorem C6_length_mismatch_raises (op : SparseLengthsFused8BitRowwiseOp) (T : IndexType)
    (kernel : Kernel) (ins : Nat → Tensor) (hv : Validated op ins)
    (ht : WellTyped op T ins) (hk : KernelFails op T kernel ins)
    (hn : ∀ l ∈ (op.Input ins .LENGTHS).elems, 0 ≤ l)
    (hs : (op.Input ins .LENGTHS).elems.sum ≠ ((op.Input ins .INDICES).numel : Int)) :
    ∃ e, (DoRunWithType op T kernel ins).result = .error e ∧
      (T = .int32_t →
        (e = .enforce_lt (op.Input ins .INDICES).numel (op.Input ins .INDICES).numel ∧
          ((op.Input ins .INDICES).numel : Int) < (op.Input ins .LENGTHS).elems.sum) ∨
        (e = .enforce_eq (op.Input ins .LENGTHS).elems.sum (op.Input ins .INDICES).numel
            sum_of_lengths_msg ∧
          (op.Input ins .LENGTHS).elems.sum < ((op.Input ins .INDICES).numel : Int)) ∨
        ∃ p : Nat, p < (op.Input ins .INDICES).numel ∧
          ¬ InRange (op.Input ins .DATA).rows ((op.Input ins .INDICES).elems.getD p 0) ∧
          e = .index_out_of_bounds p ((op.Input ins .INDICES).elems.getD p 0)
            (op.Input ins .DATA).rows) := by
  cases T with
  | int64_t =>
    exact ⟨_, kernel_failure_int64 op kernel ins hv ht hk, fun h => by cases h⟩
  | int32_t =>
    have hc := consumed_of_nonneg _ hn
    rcases kernel_failure_int32_cases op kernel ins hv ht hk with
      ⟨h1, h2, h3⟩ | ⟨h1, h2, h3⟩ | ⟨h1, h2, h3⟩ | ⟨p, h1, h2, h3, h4, h5⟩
    · exfalso
      apply hs
      rw [← hc, h2]
    · refine ⟨_, h1, fun _ => Or.inr (Or.inl ⟨by rw [hc], ?_⟩)⟩
      rw [← hc]
      exact_mod_cast h2
    · refine ⟨_, h1, fun _ => Or.inl ⟨rfl, ?_⟩⟩
      rw [← hc]
      exact_mod_cast h2
    · exact ⟨_, h1, fun _ => Or.inr (Or.inr ⟨p, h3, h4, rfl⟩)⟩

/-- C6 as amended, at INDICES = [0, 0] with LENGTHS = [1]: an error is raised. -/
theorem C6_length_mismatch_raises_witness :
    (Validated sumOp underrunInputs ∧ WellTyped sumOp .int32_t underrunInputs ∧
      KernelFails sumOp .int32_t failingKernel underrunInputs ∧
      (∀ l ∈ (sumOp.Input underrunInputs .LENGTHS).elems, 0 ≤ l) ∧
      (sumOp.Input underrunInputs .LENGTHS).elems.sum ≠
        ((sumOp.Input underrunInputs .INDICES).numel : Int)) ∧
    ∃ e, (DoRunWithType sumOp .int32_t failingKernel underrunInputs).result = .error e :=
  ⟨⟨by decide, by decide, by decide, by decide, by decide⟩,
    (C6_length_mismatch_raises sumOp .int32_t failingKernel underrunInputs (by decide)
      (by decide) (by decide) (by decide) (by decide)).imp (fun _ h => h.1)⟩

/-- C6 as stated fails twice. With INDICES = [5], LENGTHS = [2] over one row
the sum differs from the number of INDICES and the error raised is the
out-of-bounds error, neither the overrun nor the underrun error. With
INDICES = [0, 0, 0], LENGTHS = [-1, 3] the sum is 2, not 3, and the run
returns success. -/
theorem C6_counterexample :
    (Validated sumOp overrunOutOfRangeInputs ∧
      WellTyped sumOp .int32_t overrunOutOfRangeInputs ∧
      KernelFails sumOp .int32_t failingKernel overrunOutOfRangeInputs ∧
      (sumOp.Input overrunOutOfRangeInputs .LENGTHS).elems.sum = 2 ∧
      (sumOp.Input overrunOutOfRangeInputs .INDICES).numel = 1 ∧
      (DoRunWithType sumOp .int32_t failingKernel overrunOutOfRangeInputs).result =
        .error (.index_out_of_bounds 0 5 1)) ∧
    (Validated sumOp negativeLengthInputs ∧
      WellTyped sumOp .int32_t negativeLengthInputs ∧
      KernelFails sumOp .int32_t failingKernel negativeLengthInputs ∧
      (sumOp.Input negativeLengthInputs .LENGTHS).elems.sum = 2 ∧
      (sumOp.Input negativeLengthInputs .INDICES).numel = 3 ∧
      (DoRunWithType sumOp .int32_t failingKernel negativeLengthInputs).result = .ok true) :=
  ⟨⟨by decide, by decide, by decide, rfl, rfl, rfl⟩,
    ⟨by decide, by decide, by decide, rfl, rfl, rfl⟩⟩


/-! ## Configuration -/

/-- C8. Forming the operator type with both `with_weights` and `is_mean`
is refused by the `static_assert`, so no operator value, and hence no call,
has both flags; the three other pairs of flags are formed, and every operator
is plain sum, weighted sum or mean. -/
theorem C8_modes_mutually_exclusive :
    (instantiate true true = .error "Cannot have with_weights and is_mean a the same time") ∧
    (∀ op : SparseLengthsFused8BitRowwiseOp, ¬ (op.with_weights = true ∧ op.is_mean = true)) ∧
    (instantiate false false = .ok sumOp ∧ instantiate true false = .ok weightedSumOp ∧
      instantiate false true = .ok meanOp) ∧
    (∀ op : SparseLengthsFused8BitRowwiseOp, op = sumOp ∨ op = weightedSumOp ∨ op = meanOp) := by
  refine ⟨rfl, ?_, ⟨rfl, rfl, rfl⟩, ?_⟩
  · rintro ⟨w, m, h⟩ ⟨hw, hm⟩
    simp only at hw hm
    subst hw hm
    simp at h
  · rintro ⟨w, m, h⟩
    cases w <;> cases m
    · left; rfl
    · right; right; rfl
    · right; left; rfl
    · simp at h

/-! ## The order of the validation rules -/

theorem Tensor.size_one_of_dim_two (t : Tensor) (h : t.dim = 2) :
    t.size 1 = .ok t.columns := by
  unfold Tensor.dim at h
  unfold Tensor.size Tensor.columns
  match hs : t.sizes with
  | [] => simp [hs] at h
  | [_] => simp [hs] at h
  | _ :: c :: _ => simp

/-- C9. On well-typed inputs, if a rule is violated and no rule before it
in the order INDICES rank, LENGTHS rank, WEIGHTS rank, WEIGHTS count, DATA
width is, then the run raises the error of that rule (so an input that
violates exactly one rule raises the error of that rule); and the errors of
two different rules differ, whatever the inputs, because their messages do. -/
theorem C9_first_violated_rule (op : SparseLengthsFused8BitRowwiseOp) (T : IndexType)
    (kernel : Kernel) (ins : Nat → Tensor) (ht : WellTyped op T ins) (r : Rule)
    (hr : r.violated op ins)
    (hfirst : ∀ r2 : Rule, r2.position < r.position → ¬ r2.violated op ins) :
    (DoRunWithType op T kernel ins).result = .error (r.error op ins) ∧
    ∀ (r2 : Rule) (op2 : SparseLengthsFused8BitRowwiseOp) (ins2 : Nat → Tensor),
      r2 ≠ r → r2.error op2 ins2 ≠ r.error op ins := by
  constructor
  · have hi : r ≠ .indices_rank → (op.Input ins .INDICES).dim = 1 := by
      intro h
      have := hfirst .indices_rank (by cases r <;> simp_all [Rule.position])
      simpa [Rule.violated] using this
    have hl : r.position > 1 → (op.Input ins .LENGTHS).dim = 1 := by
      intro h
      have := hfirst .lengths_rank (by simpa [Rule.position] using h)
      simpa [Rule.violated] using this
    cases r with
    | indices_rank =>
      have h : (op.Input ins .INDICES).dim ≠ 1 := hr
      simp [DoRunWithType, h, Run.raise, Rule.error, Rule.message]
    | lengths_rank =>
      have h : (op.Input ins .LENGTHS).dim ≠ 1 := hr
      simp [DoRunWithType, hi (by decide), h, Run.raise, Rule.error, Rule.message]
    | weights_rank =>
      obtain ⟨hw, h⟩ : op.with_weights = true ∧ (op.Input ins .WEIGHTS).dim ≠ 1 := hr
      simp [DoRunWithType, hi (by decide), hl (by decide), readWeights, hw, h, Run.raise,
        Rule.error, Rule.message]
    | weights_count =>
      obtain ⟨hw, h⟩ : op.with_weights = true ∧
        (op.Input ins .WEIGHTS).numel ≠ (op.Input ins .INDICES).numel := hr
      have h3 : (op.Input ins .WEIGHTS).dim = 1 := by
        have := hfirst .weights_rank (by decide)
        simpa [Rule.violated, hw] using this
      simp [DoRunWithType, hi (by decide), hl (by decide), readWeights, hw, h, h3, Run.raise,
        Rule.error, Rule.message]
    | data_width =>
      have h : (op.Input ins .DATA).columns ≤ 8 := hr
      have hrw : ∃ w, readWeights op.with_weights (op.Input ins .WEIGHTS)
          (op.Input ins .INDICES) = .ok w := by
        cases hw : op.with_weights with
        | false => exact ⟨none, by simp [readWeights]⟩
        | true =>
          have h3 := hfirst .weights_rank (by decide)
          have h4 := hfirst .weights_count (by decide)
          simp only [Rule.violated, hw, true_and, not_not] at h3 h4
          exact ⟨some (op.Input ins .WEIGHTS).elems,
            by simp [readWeights, h3, h4, Tensor.data, ht.2.2.2.2 hw]⟩
      obtain ⟨w, hw⟩ := hrw
      have hs := Tensor.size_one_of_dim_two _ ht.2.1
      have h8 : ¬ (op.Input ins .DATA).columns > 8 := by omega
      simp [DoRunWithType, hi (by decide), hl (by decide), hw, hs, h8, Run.raise,
        Rule.error, Rule.message]
  · intro r2 op2 ins2 hne
    cases r <;> cases r2 <;> first
      | exact absurd rfl hne
      | (simp [Rule.error, Rule.message])

/-- C9 at weighted inputs that break both the WEIGHTS count rule and the DATA
width rule: the error is that of the WEIGHTS count rule, the earlier one. -/
theorem C9_first_violated_rule_witness :
    (WellTyped weightedSumOp .int32_t shortWeightsNarrowData ∧
      Rule.weights_count.violated weightedSumOp shortWeightsNarrowData ∧
      Rule.data_width.violated weightedSumOp shortWeightsNarrowData ∧
      ∀ r2 : Rule, r2.position < Rule.weights_count.position →
        ¬ r2.violated weightedSumOp shortWeightsNarrowData) ∧
    (DoRunWithType weightedSumOp .int32_t failingKernel shortWeightsNarrowData).result =
      .error (.enforce_eq 1 2 "WEIGHTS should have the same length as INDICES.") := by
  have hf : ∀ r2 : Rule, r2.position < Rule.weights_count.position →
      ¬ r2.violated weightedSumOp shortWeightsNarrowData := by
    intro r2
    cases r2 <;> decide
  exact ⟨⟨by decide, by decide, by decide, hf⟩,
    (C9_first_violated_rule weightedSumOp .int32_t failingKernel shortWeightsNarrowData
      (by decide) .weights_count (by decide) hf).1⟩

/-! ## Slots and dispatch -/

/-- At `int32_t`, with non-negative LENGTHS, a validated run whose kernel call
failed returns success exactly if the LENGTHS sum to the number of INDICES
and every INDICES value is in range. -/
theorem fallback_success_iff_int32 (op : SparseLengthsFused8BitRowwiseOp) (kernel : Kernel)
    (ins : Nat → Tensor) (hv : Validated op ins) (ht : WellTyped op .int32_t ins)
    (hk : KernelFails op .int32_t kernel ins)
    (hn : ∀ l ∈ (op.Input ins .LENGTHS).elems, 0 ≤ l) :
    (DoRunWithType op .int32_t kernel ins).result = .ok true ↔
      (op.Input ins .LENGTHS).elems.sum = ((op.Input ins .INDICES).numel : Int) ∧
      ∀ x ∈ (op.Input ins .INDICES).elems, InRange (op.Input ins .DATA).rows x := by
  have hlen := (op.Input ins .INDICES).length_elems
  have hc := consumed_of_nonneg _ hn
  rcases kernel_failure_int32_cases op kernel ins hv ht hk with
    ⟨h1, h2, h3⟩ | ⟨h1, h2, h3⟩ | ⟨h1, h2, h3⟩ | ⟨p, h1, h2, h3, h4, h5⟩
  · refine ⟨fun _ => ⟨by rw [← hc, h2], ?_⟩, fun _ => h1⟩
    exact (forall_getD_iff _ _).mp (fun p hp => h3 p (by omega))
  · refine ⟨fun h => ?_, fun h => ?_⟩
    · rw [h1] at h; cases h
    · have := h.1; rw [← hc] at this; omega
  · refine ⟨fun h => ?_, fun h => ?_⟩
    · rw [h1] at h; cases h
    · have := h.1; rw [← hc] at this; omega
  · refine ⟨fun h => ?_, fun h => ?_⟩
    · rw [h1] at h; cases h
    · exact absurd ((forall_getD_iff _ _).mpr h.2 p (by omega)) h4

/-- C11, at the failing input. The inputs of weighted mode are valid
(non-negative LENGTHS = [1, 1] that sum to the two INDICES, both in range),
of 64-bit kind, and the kernel reports failure: the fallback does not return
success, it raises the type mismatch of `lengths.data<IndexType>()`. -/
theorem C11_valid_int64_fallback_raises :
    Validated weightedSumOp validWeightedInputs64 ∧
    WellTyped weightedSumOp .int64_t validWeightedInputs64 ∧
    KernelFails weightedSumOp .int64_t failingKernel validWeightedInputs64 ∧
    ValidIndexing weightedSumOp validWeightedInputs64 ∧
    (DoRunWithType weightedSumOp .int64_t failingKernel validWeightedInputs64).result =
      .error (.type_mismatch .int64 .int32) ∧
    (DoRunWithType weightedSumOp .int64_t failingKernel validWeightedInputs64).result ≠
      .ok true :=
  ⟨by decide, by decide, by decide, by decide, rfl, fun h => by cases h⟩

/-- At `int32_t`, with non-negative LENGTHS of sum `S` and all `n` INDICES in
range, a validated run whose kernel call failed raises the overrun error,
with the cursor at `n`, exactly if `S > n`; the final length-mismatch error,
with the cursor at `S`, exactly if `S < n`; and returns success exactly if
`S = n`. -/
theorem fallback_overrun_underrun_int32 (op : SparseLengthsFused8BitRowwiseOp)
    (kernel : Kernel) (ins : Nat → Tensor) (hv : Validated op ins)
    (ht : WellTyped op .int32_t ins) (hk : KernelFails op .int32_t kernel ins)
    (hn : ∀ l ∈ (op.Input ins .LENGTHS).elems, 0 ≤ l)
    (hr : ∀ x ∈ (op.Input ins .INDICES).elems, InRange (op.Input ins .DATA).rows x) :
    ((DoRunWithType op .int32_t kernel ins).result =
        .error (.enforce_lt (op.Input ins .INDICES).numel (op.Input ins .INDICES).numel) ↔
      ((op.Input ins .INDICES).numel : Int) < (op.Input ins .LENGTHS).elems.sum) ∧
    ((DoRunWithType op .int32_t kernel ins).result =
        .error (.enforce_eq (op.Input ins .LENGTHS).elems.sum (op.Input ins .INDICES).numel
          sum_of_lengths_msg) ↔
      (op.Input ins .LENGTHS).elems.sum < ((op.Input ins .INDICES).numel : Int)) ∧
    ((DoRunWithType op .int32_t kernel ins).result = .ok true ↔
      (op.Input ins .LENGTHS).elems.sum = ((op.Input ins .INDICES).numel : Int)) := by
  have hlen := (op.Input ins .INDICES).length_elems
  have hc := consumed_of_nonneg _ hn
  rcases kernel_failure_int32_cases op kernel ins hv ht hk with
    ⟨h1, h2, h3⟩ | ⟨h1, h2, h3⟩ | ⟨h1, h2, h3⟩ | ⟨p, h1, h2, h3, h4, h5⟩
  · have hS : (op.Input ins .LENGTHS).elems.sum = ((op.Input ins .INDICES).numel : Int) := by
      rw [← hc, h2]
    rw [h1]
    refine ⟨Iff.intro (fun h => by cases h) (fun h => by omega),
      Iff.intro (fun h => by cases h) (fun h => by omega),
      Iff.intro (fun _ => hS) (fun _ => rfl)⟩
  · have hS : (op.Input ins .LENGTHS).elems.sum < ((op.Input ins .INDICES).numel : Int) := by
      rw [← hc]; exact_mod_cast h2
    rw [h1, hc]
    refine ⟨Iff.intro (fun h => by cases h) (fun h => by omega),
      Iff.intro (fun _ => hS) (fun _ => rfl),
      Iff.intro (fun h => by cases h) (fun h => by omega)⟩
  · have hS : ((op.Input ins .INDICES).numel : Int) < (op.Input ins .LENGTHS).elems.sum := by
      rw [← hc]; exact_mod_cast h2
    rw [h1]
    refine ⟨Iff.intro (fun _ => hS) (fun _ => rfl),
      Iff.intro (fun h => by cases h) (fun h => by omega),
      Iff.intro (fun h => by cases h) (fun h => by omega)⟩
  · exact absurd ((forall_getD_iff _ _).mpr hr p (by omega)) h4

/-- The overrun report at INDICES = [0], LENGTHS = [2] of 32-bit kind: the
cursor is 1, the number of INDICES. -/
theorem fallback_overrun_underrun_int32_example :
    (DoRunWithType sumOp .int32_t failingKernel overrunInputs32).result =
      .error (.enforce_lt 1 1) := rfl

/-- C12, at the failing input. The inputs pass validation, LENGTHS = [2] is
non-negative with sum 2, there is one INDICES value, in range and of 64-bit
kind, and the kernel reports failure: the run does not raise the overrun
error with the cursor at 1, it raises the type mismatch of
`lengths.data<IndexType>()` before the walk starts. -/
theorem C12_int64_overrun_not_reported :
    Validated sumOp overrunInputs64 ∧ WellTyped sumOp .int64_t overrunInputs64 ∧
    KernelFails sumOp .int64_t failingKernel overrunInputs64 ∧
    (sumOp.Input overrunInputs64 .LENGTHS).elems = [2] ∧
    (sumOp.Input overrunInputs64 .INDICES).elems = [0] ∧
    (sumOp.Input overrunInputs64 .DATA).rows = 1 ∧
    (DoRunWithType sumOp .int64_t failingKernel overrunInputs64).result =
      .error (.type_mismatch .int64 .int32) ∧
    (DoRunWithType sumOp .int64_t failingKernel overrunInputs64).result ≠
      .error (.enforce_lt 1 1) :=
  ⟨by decide, by decide, by decide, rfl, rfl, rfl, rfl, fun h => by cases h⟩

/-- At `int32_t` the fallback reads the buffer of LENGTHS that the kernel
was handed. -/
theorem fallback_lengths_int32 (op : SparseLengthsFused8BitRowwiseOp) (kernel : Kernel)
    (ins : Nat → Tensor) (hv : Validated op ins) (ht : WellTyped op .int32_t ins) :
    (DoRunWithType op .int32_t kernel ins).calls.map (fun a => a.lengths) =
      [(op.Input ins .LENGTHS).elems] ∧
    (op.Input ins .LENGTHS).data IndexType.int32_t.kind = .ok (op.Input ins .LENGTHS).elems := by
  constructor
  · rw [DoRunWithType_of_validated op .int32_t kernel ins hv ht]
    rfl
  · simp [Tensor.data, IndexType.kind, ht.2.2.2.1]

/-- C13, at the failing input. With 64-bit INDICES = [0, 0, 0] and LENGTHS =
[1, 2] the kernel is handed the LENGTHS [1, 2], read as `int`; the fallback
asks for the same tensor as `int64_t`, gets no buffer at all, and the run
ends in that type mismatch: it walks no segment. -/
theorem C13_int64_fallback_reads_no_lengths :
    Validated sumOp twoSegmentInputs64 ∧ WellTyped sumOp .int64_t twoSegmentInputs64 ∧
    KernelFails sumOp .int64_t failingKernel twoSegmentInputs64 ∧
    (DoRunWithType sumOp .int64_t failingKernel twoSegmentInputs64).calls.map
      (fun a => a.lengths) = [[1, 2]] ∧
    (sumOp.Input twoSegmentInputs64 .LENGTHS).data .int32 = .ok [1, 2] ∧
    (sumOp.Input twoSegmentInputs64 .LENGTHS).data IndexType.int64_t.kind =
      .error (.type_mismatch .int64 .int32) ∧
    (DoRunWithType sumOp .int64_t failingKernel twoSegmentInputs64).result =
      .error (.type_mismatch .int64 .int32) :=
  ⟨by decide, by decide, by decide, rfl, rfl, rfl, rfl⟩


/-! ## The kernel call and the output buffer -/

theorem RunOnDevice_of_kind (op : SparseLengthsFused8BitRowwiseOp) (T : IndexType)
    (kernel : Kernel) (ins : Nat → Tensor) (h : (op.Input ins .INDICES).kind = T.kind) :
    RunOnDevice op kernel ins = DoRunWithType op T kernel ins := by
  unfold RunOnDevice
  cases T <;> simp [IndexType.kind] at h <;> simp [h]

/-- C14. A validated run calls the kernel exactly once, with block size
`columns - 8`, output size the number of elements of LENGTHS, index size the
number of elements of INDICES, data size the number of rows of DATA, the
buffers of DATA, INDICES and LENGTHS, `normalize_by_lengths` set exactly in
mean mode, the buffer of WEIGHTS in weighted mode and no weights otherwise,
and prefetch distance 16; the kernel instance is the one for the index kind
`T`, which is the kind of the INDICES tensor that `RunOnDevice` dispatches on. -/
theorem C14_kernel_call (op : SparseLengthsFused8BitRowwiseOp) (T : IndexType)
    (kernel : Kernel) (ins : Nat → Tensor) (hv : Validated op ins)
    (ht : WellTyped op T ins) :
    ∃ args : KernelArgs, (DoRunWithType op T kernel ins).calls = [args] ∧
      (RunOnDevice op kernel ins).calls = [args] ∧
      args.block_size = ((op.Input ins .DATA).columns : Int) - 8 ∧
      args.output_size = (op.Input ins .LENGTHS).numel ∧
      args.index_size = (op.Input ins .INDICES).numel ∧
      args.data_size = (op.Input ins .DATA).rows ∧
      args.input = (op.Input ins .DATA).elems ∧
      args.indices = (op.Input ins .INDICES).elems ∧
      args.lengths = (op.Input ins .LENGTHS).elems ∧
      (args.normalize_by_lengths = true ↔ op = meanOp) ∧
      (op.with_weights = true → args.weights = some (op.Input ins .WEIGHTS).elems) ∧
      (op.with_weights = false → args.weights = none) ∧
      args.prefetch_distance = 16 ∧
      args.index_type = T ∧ (op.Input ins .INDICES).kind = args.index_type.kind := by
  refine ⟨kernelArgs op T ins, ?_, ?_, rfl, rfl, rfl, rfl, rfl, rfl, rfl, ?_, ?_, ?_, rfl, rfl,
    ht.2.2.1⟩
  · rw [DoRunWithType_of_validated op T kernel ins hv ht]
  · rw [RunOnDevice_of_kind op T kernel ins ht.2.2.1,
      DoRunWithType_of_validated op T kernel ins hv ht]
  · show op.is_mean = true ↔ op = meanOp
    obtain ⟨w, m, h⟩ := op
    cases w <;> cases m <;> simp [meanOp] at h ⊢
  · intro hw
    simp [kernelArgs, hw]
  · intro hw
    simp [kernelArgs, hw]

/-- C14 at valid weighted inputs: one call, with the two WEIGHTS, no
normalization, block size 1 and prefetch distance 16. -/
theorem C14_kernel_call_witness :
    (Validated weightedSumOp validWeightedInputs ∧
      WellTyped weightedSumOp .int32_t validWeightedInputs) ∧
    ∃ args : KernelArgs,
      (DoRunWithType weightedSumOp .int32_t succeedingKernel validWeightedInputs).calls =
        [args] ∧
      args.block_size = 1 ∧ args.weights = some [1065353216, 0] ∧
      args.prefetch_distance = 16 := by
  refine ⟨⟨by decide, by decide⟩, ?_⟩
  obtain ⟨args, h1, _, h3, _, _, _, _, _, _, _, h4, _, h5, _⟩ :=
    C14_kernel_call weightedSumOp .int32_t succeedingKernel validWeightedInputs
      (by decide) (by decide)
  exact ⟨args, h1, by rw [h3]; rfl, by rw [h4 rfl]; rfl, h5⟩

/-- The fallback uses DATA only through `size(0)`. -/
theorem fallback_congr_data (T : IndexType) (n : Nat) (data data2 indices lengths : Tensor)
    (h : data2.size 0 = data.size 0) :
    fallback T n data2 indices lengths = fallback T n data indices lengths := by
  unfold fallback
  rw [h]

/-- C15. In a validated run whose kernel call failed, OUTPUT holds at the
end exactly what the kernel left in it, whether the run raises or returns;
and the way the run ends is determined by the index kind, the INDICES
tensor, the LENGTHS tensor and the number of rows of DATA: another such run,
in any mode, with any kernel, any DATA contents and any WEIGHTS, ends the
same way. -/
theorem C15_fallback_leaves_output (op : SparseLengthsFused8BitRowwiseOp) (T : IndexType)
    (kernel : Kernel) (ins : Nat → Tensor) (hv : Validated op ins)
    (ht : WellTyped op T ins) (hk : KernelFails op T kernel ins) :
    (DoRunWithType op T kernel ins).out_data = some (kernel (kernelArgs op T ins)).2 ∧
    (DoRunWithType op T kernel ins).calls = [kernelArgs op T ins] ∧
    ∀ (op2 : SparseLengthsFused8BitRowwiseOp) (kernel2 : Kernel) (ins2 : Nat → Tensor),
      Validated op2 ins2 → WellTyped op2 T ins2 → KernelFails op2 T kernel2 ins2 →
      op2.Input ins2 .INDICES = op.Input ins .INDICES →
      op2.Input ins2 .LENGTHS = op.Input ins .LENGTHS →
      (op2.Input ins2 .DATA).rows = (op.Input ins .DATA).rows →
      (DoRunWithType op2 T kernel2 ins2).result = (DoRunWithType op T kernel ins).result := by
  have hk1 : (kernel (kernelArgs op T ins)).1 = false := hk
  refine ⟨?_, ?_, ?_⟩
  · rw [DoRunWithType_of_validated op T kernel ins hv ht]
  · rw [DoRunWithType_of_validated op T kernel ins hv ht]
  · intro op2 kernel2 ins2 hv2 ht2 hk2 hi hl hd
    have hk3 : (kernel2 (kernelArgs op2 T ins2)).1 = false := hk2
    rw [DoRunWithType_of_validated op T kernel ins hv ht,
      DoRunWithType_of_validated op2 T kernel2 ins2 hv2 ht2]
    simp only [hk1, hk3, Bool.false_eq_true, if_false, hi, hl]
    apply fallback_congr_data
    rw [Tensor.size_zero_of_columns _ hv2.2.2.2, Tensor.size_zero_of_columns _ hv.2.2.2, hd]

/-- C15 at INDICES = [0, 0] with LENGTHS = [1] and a kernel that fails after
writing [42]: the run raises and OUTPUT holds [42]. -/
theorem C15_fallback_leaves_output_witness :
    (Validated sumOp underrunInputs ∧ WellTyped sumOp .int32_t underrunInputs ∧
      KernelFails sumOp .int32_t (fun _ => (false, [42])) underrunInputs) ∧
    (DoRunWithType sumOp .int32_t (fun _ => (false, [42])) underrunInputs).out_data =
      some [42] :=
  ⟨⟨by decide, by decide, by decide⟩,
    (C15_fallback_leaves_output sumOp .int32_t (fun _ => (false, [42])) underrunInputs
      (by decide) (by decide) (by decide)).1⟩


/-! ## The walk on sequences -/

/-- The walk checks `consumed` positions in a row from position 0, then
compares the cursor with the number of INDICES. -/
theorem walk_eq_innerLoop (L I : List Int) (d : Nat) :
    walk L I d =
      match innerLoop I I.length d (consumed L) 0 with
      | .error e => .error e
      | .ok current =>
        if current = I.length then .ok true
        else .error (.enforce_eq current I.length sum_of_lengths_msg) := by
  unfold walk fallbackWalk
  rw [outerLoop_eq_walkSegments _ _ _ _ _ _ _ (by simp), List.drop_zero,
    walkSegments_eq_innerLoop]

/-- At `int32_t` a validated run whose kernel call failed ends as the walk
on the elements of LENGTHS and INDICES and the number of rows does. -/
theorem kernel_failure_int32_eq_walk (op : SparseLengthsFused8BitRowwiseOp) (kernel : Kernel)
    (ins : Nat → Tensor) (hv : Validated op ins) (ht : WellTyped op .int32_t ins)
    (hk : KernelFails op .int32_t kernel ins) :
    (DoRunWithType op .int32_t kernel ins).result =
      walk (op.Input ins .LENGTHS).elems (op.Input ins .INDICES).elems
        (op.Input ins .DATA).rows := by
  rw [DoRunWithType_of_validated op .int32_t kernel ins hv ht]
  have hk2 : (kernel (kernelArgs op .int32_t ins)).1 = false := hk
  simp only [hk2, Bool.false_eq_true, if_false]
  rw [fallback_int32 _ _ _ hv.2.2.2 ht.2.2.1 ht.2.2.2.1, walk_eq_innerLoop,
    Tensor.length_elems]

theorem consumed_append (L1 L2 : List Int) :
    consumed (L1 ++ L2) = consumed L1 + consumed L2 := by
  simp [consumed]

theorem consumed_cons (len : Int) (L : List Int) :
    consumed (len :: L) = len.toNat + consumed L := by
  simp [consumed]

/-- C16. For every LENGTHS sequence, INDICES sequence and number of rows,
a zero-length segment inserted at any position of LENGTHS, the start and
the end included, leaves the outcome of the fallback walk as it was: the
same success, or the same error with the same reported values. -/
theorem C16_zero_length_segment (L1 L2 I : List Int) (d : Nat) :
    walk (L1 ++ 0 :: L2) I d = walk (L1 ++ L2) I d ∧
    walk (0 :: L2) I d = walk L2 I d ∧
    walk (L1 ++ [0]) I d = walk L1 I d := by
  refine ⟨?_, ?_, ?_⟩ <;> rw [walk_eq_innerLoop, walk_eq_innerLoop] <;>
    simp [consumed_append, consumed_cons, consumed]

/-! ## The reads of the walk -/

/-- C18. A negative length runs the inner loop zero times: the walk ends
as with a zero-length segment in its place, and as a single segment of
`consumed` indices would, where `consumed` is the sum of `max(0, len)`. So
with LENGTHS = [-1, 3], which sum to 2, and two in-range INDICES the run
raises the overrun error at cursor 2, and with three in-range INDICES it
returns success. -/
theorem C18_negative_length_is_empty_segment :
    (∀ (L1 L2 I : List Int) (len : Int) (d : Nat), len < 0 →
      walk (L1 ++ len :: L2) I d = walk (L1 ++ 0 :: L2) I d) ∧
    (∀ (L I : List Int) (d : Nat),
      walk L I d = walk [(consumed L : Int)] I d ∧
      ((consumed L : Nat) : Int) = (L.map (fun len => max 0 len)).sum) ∧
    ((sumOp.Input negativeLengthOverrunInputs .LENGTHS).elems = [-1, 3] ∧
      (sumOp.Input negativeLengthOverrunInputs .LENGTHS).elems.sum =
        ((sumOp.Input negativeLengthOverrunInputs .INDICES).numel : Int) ∧
      (∀ x ∈ (sumOp.Input negativeLengthOverrunInputs .INDICES).elems,
        InRange (sumOp.Input negativeLengthOverrunInputs .DATA).rows x) ∧
      (DoRunWithType sumOp .int32_t failingKernel negativeLengthOverrunInputs).result =
        .error (.enforce_lt 2 2)) ∧
    ((sumOp.Input negativeLengthInputs .LENGTHS).elems = [-1, 3] ∧
      (DoRunWithType sumOp .int32_t failingKernel negativeLengthInputs).result = .ok true) := by
  refine ⟨?_, ?_, ⟨rfl, by decide, by decide, rfl⟩, ⟨rfl, rfl⟩⟩
  · intro L1 L2 I len d hlen
    rw [walk_eq_innerLoop, walk_eq_innerLoop]
    have : len.toNat = 0 := by omega
    simp [consumed_append, consumed_cons, this]
  · intro L I d
    constructor
    · have h : consumed [((consumed L : Nat) : Int)] = consumed L := by
        generalize consumed L = n
        simp [consumed]
      rw [walk_eq_innerLoop, walk_eq_innerLoop, h]
    · induction L with
      | nil => simp [consumed]
      | cons a rest ih =>
        rw [consumed_cons, List.map_cons, List.sum_cons]
        push_cast
        rw [ih, Int.toNat_eq_max, max_comm]


/-- C18 at LENGTHS = [2, -5, 1] over three INDICES: the walk ends as with
LENGTHS = [2, 0, 1]. -/
theorem C18_negative_length_is_empty_segment_witness :
    (-5 : Int) < 0 ∧
    walk ([2] ++ (-5) :: [1]) [0, 0, 0] 1 = walk ([2] ++ 0 :: [1]) [0, 0, 0] 1 :=
  ⟨by decide, C18_negative_length_is_empty_segment.1 [2] [1] [0, 0, 0] (-5) 1 (by decide)⟩


end caffe2
